import Mathlib

/-!
Verification development for the Meal-plan-Ultra repository.

We shallowly embed the plan-selection engine: the meal record data model,
the preference filter, the macro gram derivation, the day planner's
randomized local search, the tightening/rebalance pass, and the grocery
aggregator.  Python floats are modelled by exact rational arithmetic (ℚ);
Python's randomness is modelled by an explicit stream of natural numbers
(each `random.choice` / `random.randrange` consumes one stream element)
and, for `random.shuffle`, by passing the shuffled sequence explicitly.
Python dicts used as string-keyed counters are modelled as functions
`String → Nat`; dicts used as records are modelled as structures.

Namespace `MP` embeds `src/mealplanner/services/planner.py` and
`src/mealplanner/services/macros.py`; namespace `App` embeds `src/app.py`.
-/

/-- MealRecord from the data model: `name`, `meal_type`, `K` (kcal),
`P`/`C`/`F` (grams), `tags`, `ingredients`.  The `instructions` field is
display-only (opaque to the engine, unused by every embedded function) and
is omitted. -/
structure Meal where
  name : String
  meal_type : String
  K : Int
  P : Int
  C : Int
  F : Int
  tags : List String
  ingredients : List String
  deriving Repr, DecidableEq

instance : Inhabited Meal := ⟨⟨"", "", 0, 0, 0, 0, [], []⟩⟩

/-- Preferences struct: boolean flags plus the free-text `excludes` string. -/
structure Prefs where
  vegetarian : Bool := false
  vegan : Bool := false
  dairy_free : Bool := false
  gluten_free : Bool := false
  excludes : String := ""
  deriving Repr, DecidableEq

/-- Python `x in text` for strings: substring containment. -/
def strContains (text x : String) : Bool :=
  decide (x.toList <:+: text.toList)

/-- Python `s.lower()`, modelled characterwise (agrees with Python on the
ASCII text this catalog uses). -/
def pyLower (s : String) : String := String.mk (s.data.map Char.toLower)

/-- Worker for `s.split(',')`. -/
def splitCommaAux : List Char → List Char → List String
  | [], acc => [String.mk acc.reverse]
  | c :: rest, acc =>
      if c = ',' then String.mk acc.reverse :: splitCommaAux rest []
      else splitCommaAux rest (c :: acc)

/-- Python `s.split(',')` (note `"".split(',') == ['']`). -/
def pySplitComma (s : String) : List String := splitCommaAux s.data []

/-- Python `s.strip()`: leading and trailing whitespace removed. -/
def pyStrip (s : String) : String :=
  String.mk (((s.data.dropWhile Char.isWhitespace).reverse.dropWhile
    Char.isWhitespace).reverse)

/-- Python `" ".join(l)`. -/
def pyJoinSpace : List String → String
  | [] => ""
  | [s] => s
  | s :: rest => s ++ " " ++ pyJoinSpace rest

/-- Python `[x.strip().lower() for x in s.split(',') if x.strip()]`
(the `set(...)` wrapper only deduplicates, which is irrelevant to the
`any(...)` membership test it feeds; we keep the list). -/
def parseExcludes (s : String) : List String :=
  ((pySplitComma s).filter (fun x => pyStrip x ≠ "")).map (fun x => pyLower (pyStrip x))

/-- `(m["name"] + " " + " ".join(m["ingredients"])).lower()`. -/
def mealText (m : Meal) : String :=
  pyLower (m.name ++ " " ++ pyJoinSpace m.ingredients)

/-- The per-meal inclusion test shared by both `filter_meals` copies:
the loop body keeps `m` unless one of the `continue` guards fires. -/
def keepMeal (prefs : Prefs) (excludes : List String) (m : Meal) : Bool :=
  let tags := m.tags
  (!prefs.vegetarian || tags.contains "vegetarian" || tags.contains "vegan") &&
  (!prefs.vegan || tags.contains "vegan") &&
  (!prefs.dairy_free || tags.contains "dairy_free" || tags.contains "vegan") &&
  !(excludes.any (fun x => strContains (mealText m) x))

/-- `_totals(picks)` from app.py (also the sums planner.py recomputes
inline): summed kcal, protein, carb and fat grams. -/
def totalsK (picks : List Meal) : Int := (picks.map Meal.K).sum

def totalsP (picks : List Meal) : Int := (picks.map Meal.P).sum

def totalsC (picks : List Meal) : Int := (picks.map Meal.C).sum

def totalsF (picks : List Meal) : Int := (picks.map Meal.F).sum

/-- One random draw: `random.choice(l)` modelled as indexing by the next
stream element modulo the length (the source only calls it on non-empty
lists; `dflt` is returned in the unreachable empty case). -/
def rchoice (l : List Meal) (r : Nat) (dflt : Meal) : Meal :=
  l.getD (r % l.length) dflt

namespace MP

/-- `filter_meals(meals, prefs)` from planner.py, before the
`selected or meals` fallback: the `selected` accumulator. -/
def filterCore (meals : List Meal) (prefs : Prefs) : List Meal :=
  meals.filter (keepMeal prefs (parseExcludes prefs.excludes))

/-- `filter_meals(meals, prefs)` from planner.py: `return selected or meals`. -/
def filter_meals (meals : List Meal) (prefs : Prefs) : List Meal :=
  let selected := filterCore meals prefs
  if selected.isEmpty then meals else selected

/-- `_score(picks, kcal_target, p_t, c_t, f_t)` from planner.py:
`abs(k-kcal_target)*1.0 + abs(p-p_t)*2.0 + abs(c-c_t)*1.5 + abs(f-f_t)*1.5`. -/
def score (picks : List Meal) (kt pt ct ft : ℚ) : ℚ :=
  |(totalsK picks : ℚ) - kt| * 1 + |(totalsP picks : ℚ) - pt| * 2 +
    |(totalsC picks : ℚ) - ct| * (3/2) + |(totalsF picks : ℚ) - ft| * (3/2)

/-- `aggregate_grocery`'s inner update `out[it] = out.get(it, 0) + 1`,
with the dict modelled as a total lookup function. -/
def bump (out : String → Nat) (it : String) : String → Nat :=
  fun s => if s = it then out it + 1 else out s

/-- The triple loop of `aggregate_grocery(plan)`, folding over an initial
dict `out`. -/
def aggFrom (out : String → Nat) (plan : List (List Meal)) : String → Nat :=
  plan.foldl (fun o day => day.foldl (fun o' meal => meal.ingredients.foldl bump o') o) out

/-- `aggregate_grocery(plan)` from planner.py: tally of every ingredient
string across every meal across every day, starting from `out = {}`. -/
def aggregate_grocery (plan : List (List Meal)) : String → Nat :=
  aggFrom (fun _ => 0) plan

/-- Python's `round`: round half to even (banker's rounding), modelled on
exact rationals. -/
def pyRound (q : ℚ) : Int :=
  let n := ⌊q⌋
  let f := q - (n : ℚ)
  if f < 1/2 then n
  else if 1/2 < f then n + 1
  else if n % 2 = 0 then n else n + 1

/-- `grams_from_kcal(target_kcal, p_ratio, c_ratio, f_ratio)` from
macros.py: `(round(target_kcal*p_ratio/4), round(target_kcal*c_ratio/4),
round(target_kcal*f_ratio/9))`. -/
def grams_from_kcal (target_kcal : ℚ) (p_ratio : ℚ := 0.40)
    (c_ratio : ℚ := 0.30) (f_ratio : ℚ := 0.30) : Int × Int × Int :=
  (pyRound (target_kcal * p_ratio / 4), pyRound (target_kcal * c_ratio / 4),
    pyRound (target_kcal * f_ratio / 9))

/-- `MEAL_TYPES` from planner.py. -/
def MEAL_TYPES : List String := ["breakfast", "lunch", "dinner", "snack"]

/-- `by_type.get(mt) or meals_db` where
`by_type = {t: [m for m in meals_db if m["meal_type"]==t] for t in MEAL_TYPES}`:
for the four standard types the bucket is the type-filtered list with the
whole db as fallback when it is empty; `.get` yields `None` (hence the
fallback) for any other type. -/
def bucket (meals_db : List Meal) (mt : String) : List Meal :=
  if MEAL_TYPES.contains mt then
    let b := meals_db.filter (fun m => m.meal_type == mt)
    if b.isEmpty then meals_db else b
  else meals_db

/-- The slot sequence of planner.py's `pick_day_plan` before shuffling:
`["dinner"]`, `["lunch","dinner"]`, `["breakfast","lunch","dinner"]` for
1/2/3 meals per day, and the fixed four-slot list otherwise. -/
def baseSeq (meals_per_day : Nat) : List String :=
  if meals_per_day == 1 then ["dinner"]
  else if meals_per_day == 2 then ["lunch", "dinner"]
  else if meals_per_day == 3 then ["breakfast", "lunch", "dinner"]
  else ["breakfast", "lunch", "dinner", "snack"]

/-- `picks = [random.choice(by_type.get(mt) or meals_db) for mt in seq]`:
one stream element per slot, starting at stream index `i`. -/
def seedPicks (meals_db : List Meal) (seq : List String) (r : Nat → Nat)
    (i : Nat) : List Meal :=
  match seq with
  | [] => []
  | mt :: rest => rchoice (bucket meals_db mt) (r i) default ::
      seedPicks meals_db rest r (i + 1)

/-- Python `int(q)`: truncation toward zero, on exact rationals. -/
def pyInt (q : ℚ) : Int := if 0 ≤ q then ⌊q⌋ else -⌊-q⌋

/-- Mutation draw of planner.py's refinement loop:
`i = random.randrange(0, len(picks))`, a replacement from slot `i`'s
bucket, and `new = picks[:]; new[i] = cand`. -/
def stepTrial (meals_db : List Meal) (picks : List Meal) (r1 r2 : Nat) :
    List Meal :=
  let i := r1 % picks.length
  let mt := (picks.getD i default).meal_type
  let cand := rchoice (bucket meals_db mt) r2 default
  picks.set i cand

/-- One iteration body of planner.py's refinement loop: the mutation draw
(`stepTrial`) followed by acceptance iff the score (with macro targets) or
the absolute calorie deviation (without) strictly improves.  Returns the
held picks and the maintained `best` value. -/
def step (meals_db : List Meal) (kt : Int) (mtg : Option (Int × Int × Int))
    (picks : List Meal) (best : ℚ) (r1 r2 : Nat) : List Meal × ℚ :=
  let new := stepTrial meals_db picks r1 r2
  match mtg with
  | some (pt, ct, ft) =>
      let sc := score new (kt : ℚ) (pt : ℚ) (ct : ℚ) (ft : ℚ)
      if sc < best then (new, sc) else (picks, best)
  | none =>
      if |(totalsK new : ℚ) - (kt : ℚ)| < |(totalsK picks : ℚ) - (kt : ℚ)| then
        (new, best)
      else (picks, best)

/-- The `while attempts>0` loop of planner.py's `pick_day_plan`
(`attempts = 150` is the fuel; `i` indexes the random stream; two draws
per iteration).  After each iteration the loop breaks once
`low <= sum(K) <= up and (not macro_targets or best < 20)`. -/
def loop (meals_db : List Meal) (kt : Int) (mtg : Option (Int × Int × Int))
    (r : Nat → Nat) : Nat → Nat → List Meal → ℚ → List Meal
  | 0, _, picks, _ => picks
  | fuel + 1, i, picks, best =>
      let s := step meals_db kt mtg picks best (r i) (r (i + 1))
      if (pyInt ((kt : ℚ) * 0.95) ≤ totalsK s.1 ∧ totalsK s.1 ≤ pyInt ((kt : ℚ) * 1.05)) ∧
          (mtg = none ∨ s.2 < 20) then
        s.1
      else loop meals_db kt mtg r fuel (i + 2) s.1 s.2

/-- `pick_day_plan(target_kcal, meals_db, meals_per_day, macro_targets)`
from planner.py.  `random.shuffle(seq)` is modelled by the explicit
`shuffle` argument (the permutation the RNG picked); `r` is the random
stream for the subsequent `choice`/`randrange` calls. -/
def pick_day_plan (target_kcal : Int) (meals_db : List Meal)
    (meals_per_day : Nat) (mtg : Option (Int × Int × Int))
    (shuffle : List String → List String) (r : Nat → Nat) :
    List Meal × Int :=
  let seq := shuffle (baseSeq meals_per_day)
  let picks := seedPicks meals_db seq r 0
  let best := match mtg with
    | some (pt, ct, ft) => score picks (target_kcal : ℚ) (pt : ℚ) (ct : ℚ) (ft : ℚ)
    | none => |(totalsK picks : ℚ) - (target_kcal : ℚ)|
  let final := loop meals_db target_kcal mtg r 150 seq.length picks best
  (final, totalsK final)

/-- The quantity planner.py's loop compares when deciding acceptance:
`_score` when macro targets are supplied, the absolute calorie deviation
otherwise (specification-level view of the loop's two branches). -/
def curScore (kt : Int) (mtg : Option (Int × Int × Int)) (picks : List Meal) : ℚ :=
  match mtg with
  | some (pt, ct, ft) => score picks (kt : ℚ) (pt : ℚ) (ct : ℚ) (ft : ℚ)
  | none => |(totalsK picks : ℚ) - (kt : ℚ)|

end MP

namespace App

/-- The static meal catalog `MEALS` from app.py (display-only
`instructions` omitted). -/
def MEALS : List Meal := [
  ⟨"Greek Yogurt Parfait", "breakfast", 320, 28, 38, 6,
    ["breakfast", "quick", "high_protein"],
    ["2 cups 0% Greek yogurt", "1/2 cup berries", "1/4 cup granola", "1 tbsp honey"]⟩,
  ⟨"Veggie Egg Scramble + Toast", "breakfast", 360, 24, 32, 14,
    ["breakfast", "quick"],
    ["3 eggs", "1 cup peppers/onion", "1 tsp olive oil", "1 slice whole-grain bread"]⟩,
  ⟨"Protein Oats", "breakfast", 400, 30, 50, 9,
    ["breakfast", "high_protein", "quick"],
    ["1/2 cup oats", "1 scoop whey", "1 cup almond milk", "1 banana"]⟩,
  ⟨"Tofu Scramble Wrap", "breakfast", 380, 24, 44, 12,
    ["breakfast", "vegan", "dairy_free", "high_protein", "quick"],
    ["6 oz firm tofu", "1 small whole-grain tortilla", "1/2 cup spinach", "1/4 cup salsa"]⟩,
  ⟨"Egg-White Veggie Omelet", "breakfast", 260, 28, 16, 8,
    ["breakfast", "low_carb", "quick", "high_protein"],
    ["6 egg whites", "1 cup mushrooms/spinach", "nonstick spray"]⟩,
  ⟨"Breakfast Burrito (HP)", "breakfast", 650, 42, 62, 22,
    ["breakfast", "high_protein"],
    ["1 large tortilla", "3 eggs", "3 oz turkey sausage", "1/4 cup cheese", "salsa"]⟩,
  ⟨"Green Smoothie Bowl", "breakfast", 300, 20, 42, 7,
    ["breakfast", "vegetarian", "quick"],
    ["1 scoop vanilla protein", "1 cup spinach", "1/2 banana", "1/2 cup frozen mango", "1 cup almond milk", "2 tbsp granola"]⟩,
  ⟨"Big Protein Smoothie", "breakfast", 600, 45, 70, 14,
    ["breakfast", "high_protein", "quick"],
    ["2 scoops whey", "1 banana", "2 tbsp peanut butter", "1.5 cups milk"]⟩,
  ⟨"Overnight Oats (lite)", "breakfast", 280, 16, 44, 6,
    ["breakfast", "vegetarian", "budget"],
    ["1/3 cup oats", "1/2 cup milk", "1/2 cup yogurt", "cinnamon"]⟩,
  ⟨"Chicken Burrito Bowl", "lunch", 520, 45, 58, 12,
    ["lunch", "high_protein", "quick"],
    ["6 oz chicken", "3/4 cup brown rice", "1/2 cup black beans", "pico", "lettuce"]⟩,
  ⟨"Turkey Avocado Sandwich", "lunch", 480, 36, 46, 16,
    ["lunch", "quick"],
    ["2 slices whole-grain bread", "5 oz turkey", "1/4 avocado", "lettuce", "tomato", "mustard"]⟩,
  ⟨"Chickpea Salad Bowl", "lunch", 450, 20, 55, 14,
    ["lunch", "vegetarian", "high_protein", "budget"],
    ["1 cup chickpeas", "mixed greens", "cucumber", "tomato", "light vinaigrette"]⟩,
  ⟨"Tuna Rice Bowl", "lunch", 520, 42, 60, 12,
    ["lunch", "high_protein", "quick", "budget"],
    ["1 can tuna", "3/4 cup rice", "1/2 cup corn", "light mayo", "sriracha"]⟩,
  ⟨"Grilled Chicken Salad (LC)", "lunch", 350, 38, 18, 12,
    ["lunch", "low_carb", "high_protein"],
    ["5 oz grilled chicken", "big salad mix", "cherry tomatoes", "cucumber", "light vinaigrette"]⟩,
  ⟨"Soba Noodle Bowl", "lunch", 640, 30, 85, 18,
    ["lunch", "vegetarian"],
    ["2 oz dry soba", "edamame", "shredded carrots", "sesame dressing"]⟩,
  ⟨"Turkey & Rice Meal Prep", "lunch", 700, 45, 80, 18,
    ["lunch", "high_protein", "budget"],
    ["6 oz lean ground turkey", "1 cup cooked rice", "1/2 cup peas", "BBQ sauce"]⟩,
  ⟨"Lentil Soup + Toast", "lunch", 430, 24, 62, 10,
    ["lunch", "vegetarian", "budget"],
    ["1.5 cups lentil soup", "1 slice whole-grain bread"]⟩,
  ⟨"High-Cal Chicken Pesto Pasta", "lunch", 820, 48, 88, 26,
    ["lunch", "high_protein"],
    ["3 oz dry pasta", "6 oz chicken", "2 tbsp pesto", "spinach"]⟩,
  ⟨"Salmon, Quinoa, Broccoli", "dinner", 560, 42, 50, 18,
    ["dinner", "high_protein"],
    ["6 oz salmon", "3/4 cup quinoa", "1.5 cups broccoli", "lemon", "olive oil"]⟩,
  ⟨"Turkey Chili (1 bowl)", "dinner", 540, 40, 48, 18,
    ["dinner", "high_protein", "budget"],
    ["8 oz lean turkey", "kidney beans", "tomato sauce", "onion", "spices"]⟩,
  ⟨"Tofu Stir-Fry + Rice", "dinner", 520, 28, 62, 16,
    ["dinner", "vegan", "dairy_free", "high_protein", "quick"],
    ["6 oz tofu", "mixed veg", "1 tbsp soy sauce", "3/4 cup rice"]⟩,
  ⟨"Chicken Pasta Primavera", "dinner", 560, 44, 62, 12,
    ["dinner", "high_protein"],
    ["6 oz chicken", "2 cups mixed veg", "2 oz dry pasta", "marinara"]⟩,
  ⟨"Shrimp Alfredo (lighter)", "dinner", 680, 42, 72, 20,
    ["dinner"],
    ["7 oz shrimp", "2 oz dry fettuccine", "light alfredo sauce"]⟩,
  ⟨"Steak, Potatoes & Asparagus", "dinner", 750, 50, 70, 25,
    ["dinner", "high_protein", "gluten_free"],
    ["7 oz sirloin", "8 oz potatoes", "1 cup asparagus", "1 tsp olive oil"]⟩,
  ⟨"Vegan Chickpea Curry", "dinner", 680, 24, 90, 22,
    ["dinner", "vegan", "dairy_free", "budget"],
    ["1 cup chickpeas", "1 cup light coconut milk", "curry paste", "1 cup rice"]⟩,
  ⟨"Zoodle Turkey Bolognese (LC)", "dinner", 340, 32, 18, 12,
    ["dinner", "low_carb", "high_protein"],
    ["6 oz lean turkey", "zucchini noodles", "marinara"]⟩,
  ⟨"Stuffed Sweet Potato (HP)", "dinner", 620, 34, 78, 18,
    ["dinner", "high_protein", "vegetarian"],
    ["1 large sweet potato", "1 cup black beans", "Greek yogurt", "green onions"]⟩,
  ⟨"Apple + Peanut Butter", "snack", 240, 7, 28, 12,
    ["snack", "budget", "quick"],
    ["1 apple", "1.5 tbsp peanut butter"]⟩,
  ⟨"Cottage Cheese + Pineapple", "snack", 220, 24, 22, 5,
    ["snack", "high_protein", "quick"],
    ["1 cup low-fat cottage cheese", "1/2 cup pineapple"]⟩,
  ⟨"Protein Shake", "snack", 180, 24, 6, 5,
    ["snack", "high_protein", "quick"],
    ["1 scoop whey", "water or milk"]⟩,
  ⟨"Hummus + Carrots", "snack", 200, 6, 22, 10,
    ["snack", "vegan", "dairy_free", "budget", "quick"],
    ["1/4 cup hummus", "1 cup carrots"]⟩,
  ⟨"Rice Cake + Turkey", "snack", 180, 14, 18, 4,
    ["snack", "high_protein", "low_carb", "quick"],
    ["1 rice cake", "3 oz sliced turkey", "mustard"]⟩,
  ⟨"Trail Mix (controlled)", "snack", 300, 10, 28, 16,
    ["snack", "vegetarian", "budget"],
    ["1/4 cup mixed nuts", "2 tbsp raisins"]⟩,
  ⟨"Greek Yogurt + PB + Cocoa", "snack", 280, 24, 18, 10,
    ["snack", "high_protein"],
    ["1 cup Greek yogurt", "1 tbsp peanut butter", "1 tsp cocoa powder"]⟩,
  ⟨"Avocado Toast (lite)", "snack", 260, 7, 28, 12,
    ["snack", "vegetarian"],
    ["1 slice whole-grain bread", "1/4 avocado", "lemon", "salt"]⟩,
  ⟨"Banana", "snack", 105, 1, 27, 0,
    ["snack", "quick", "carb_boost"],
    ["1 medium banana"]⟩,
  ⟨"Plain Rice Cup", "snack", 200, 4, 45, 0,
    ["snack", "quick", "carb_boost", "gluten_free"],
    ["1 cup cooked white rice"]⟩,
  ⟨"Chicken Breast Bites", "snack", 120, 26, 0, 2,
    ["snack", "high_protein", "protein_boost", "gluten_free", "quick"],
    ["4 oz cooked chicken breast, cubed"]⟩,
  ⟨"Chicken Breast + Greens (LC)", "lunch", 380, 52, 18, 10,
    ["lunch", "high_protein", "low_carb", "quick", "gluten_free"],
    ["7 oz chicken breast", "2 cups mixed greens", "1/2 cup cherry tomatoes", "2 tbsp light vinaigrette"]⟩,
  ⟨"Turkey Egg-White Scramble", "breakfast", 320, 46, 18, 6,
    ["breakfast", "high_protein", "low_carb", "quick"],
    ["5 egg whites", "2 oz lean turkey", "1/2 cup peppers/onion", "nonstick spray"]⟩,
  ⟨"Shrimp & Veggie Stir-Fry (LC)", "dinner", 410, 48, 24, 10,
    ["dinner", "high_protein", "low_carb", "quick", "gluten_free", "dairy_free"],
    ["7 oz shrimp", "2 cups mixed veg", "1 tbsp soy sauce or coco aminos", "1 tsp sesame oil"]⟩,
  ⟨"Skyr Cup + Berries", "snack", 170, 24, 16, 1,
    ["snack", "high_protein", "quick"],
    ["1 cup plain skyr (or 0% Greek yogurt)", "1/3 cup berries"]⟩,
  ⟨"Cottage Cheese Bowl (Lean)", "snack", 190, 28, 10, 4,
    ["snack", "high_protein", "quick"],
    ["1 cup low-fat cottage cheese", "cucumber slices", "pepper"]⟩,
  ⟨"High-Protein Chicken Wrap", "lunch", 430, 48, 36, 10,
    ["lunch", "high_protein", "quick"],
    ["1 high-protein tortilla", "5 oz cooked chicken breast", "lettuce", "tomato", "mustard"]⟩,
  ⟨"Lean Beef & Veg Plate", "dinner", 500, 50, 34, 16,
    ["dinner", "high_protein", "gluten_free"],
    ["6 oz 93% lean ground beef", "2 cups zucchini/peppers", "salt", "pepper"]⟩]

/-- The three adjustment records of app.py's `MACRO_LEVERS` dict
(keys "P"/"C"/"F"). -/
def leverP : Meal :=
  ⟨"Adj: Whey in Water", "snack", 110, 24, 3, 1,
    ["adjustment", "high_protein", "quick"],
    ["1 scoop whey", "water"]⟩

def leverC : Meal :=
  ⟨"Adj: Rice Cakes (2)", "snack", 140, 2, 32, 0,
    ["adjustment", "quick", "low_fat"],
    ["2 plain rice cakes"]⟩

def leverF : Meal :=
  ⟨"Adj: Olive Oil (1 tbsp)", "snack", 120, 0, 0, 14,
    ["adjustment", "quick", "fat_boost", "gluten_free", "dairy_free", "vegan"],
    ["1 tbsp extra-virgin olive oil"]⟩

/-- Lookup `MACRO_LEVERS[key]` for `key ∈ {"P","C","F"}`. -/
def LEVERS (key : String) : Meal :=
  if key = "P" then leverP else if key = "C" then leverC else leverF

/-- `filter_meals(prefs)` from app.py: same guards as the planner.py copy
but over the global `MEALS`, with the exclusion scan guarded by
`if excludes:`, and no fallback — the possibly-empty `selected` is
returned as is. -/
def filter_meals (prefs : Prefs) : List Meal :=
  let excludes := parseExcludes prefs.excludes
  MEALS.filter (fun m =>
    (!prefs.vegetarian || m.tags.contains "vegetarian" || m.tags.contains "vegan") &&
    (!prefs.vegan || m.tags.contains "vegan") &&
    (!prefs.dairy_free || m.tags.contains "dairy_free" || m.tags.contains "vegan") &&
    (excludes.isEmpty || !(excludes.any (fun x => strContains (mealText m) x))))

/-- `_score_plan(picks, kcal_target, p_target, c_target, f_target)` from
app.py: relative-error scoring with asymmetric protein/carb penalties and
a protein-density bonus. -/
def score_plan (picks : List Meal) (kt pt ct ft : ℚ) : ℚ :=
  let k : ℚ := (totalsK picks : ℚ)
  let p : ℚ := (totalsP picks : ℚ)
  let c : ℚ := (totalsC picks : ℚ)
  let f : ℚ := (totalsF picks : ℚ)
  let kcal_err := |k - kt| / max 1 kt
  let p_under := max 0 ((pt - p) / max 1 pt)
  let p_over := max 0 ((p - pt) / max 1 pt) * 0.25
  let c_over := max 0 ((c - ct) / max 1 ct)
  let c_under := max 0 ((ct - c) / max 1 ct) * 0.40
  let f_err := |f - ft| / max 1 ft * 0.60
  let avg_pd := if picks.isEmpty then 0
    else (picks.map (fun m => (m.P : ℚ) / max 1 (m.K : ℚ))).sum / (picks.length : ℚ)
  let density_bonus := max 0 (0.10 - avg_pd)
  kcal_err * 30 + p_under * 120 + p_over * 15 + c_over * 80 + c_under * 25 +
    f_err + density_bonus * 40

/-- `int(kcal_target * 0.97)`, the lower edge of the rebalance pass's
calorie band. -/
def lowerB (kt : Int) : Int := MP.pyInt ((kt : ℚ) * 0.97)

/-- `int(kcal_target * 1.03)`, the upper edge of the rebalance pass's
calorie band. -/
def upperB (kt : Int) : Int := MP.pyInt ((kt : ℚ) * 1.03)

/-- The "close enough?" break test at the top of each
`macro_rebalance_day` iteration: every macro-gram gap inside its gram
tolerance AND total calories inside the `[lower, upper]` band. -/
def converged (kt pt ct ft : Int) (picks : List Meal) : Bool :=
  let dp : ℚ := (pt : ℚ) - (totalsP picks : ℚ)
  let dc : ℚ := (ct : ℚ) - (totalsC picks : ℚ)
  let df : ℚ := (ft : ℚ) - (totalsF picks : ℚ)
  decide (|dp| ≤ max 8 ((pt : ℚ) * 0.05)) &&
  decide (|dc| ≤ max 10 ((ct : ℚ) * 0.06)) &&
  decide (|df| ≤ max 5 ((ft : ℚ) * 0.06)) &&
  decide (lowerB kt ≤ totalsK picks) && decide (totalsK picks ≤ upperB kt)

/-- `errs = [("P",abs(dp*4)),("C",abs(dc*4)),("F",abs(df*9))]` sorted by
value descending (Python's sort is stable, so ties keep the original
P, C, F order) and the first key taken. -/
def worstKey (dp dc df : Int) : String :=
  if |dp * 4| ≥ |dc * 4| ∧ |dp * 4| ≥ |df * 9| then "P"
  else if |dc * 4| ≥ |df * 9| then "C"
  else "F"

/-- The per-item value of the over-calorie drop scan:
`m["C"] if over_key == "C" else (m["F"]*9 if over_key == "F" else m["K"])`. -/
def dropScore (over_key : String) (m : Meal) : Int :=
  if over_key = "C" then m.C else if over_key = "F" then m.F * 9 else m.K

/-- The scan for the ordinary snack to drop: first index of a
non-adjustment `snack` item with the strictly largest `dropScore`
(`best_score` starts at `-1`; replacement only on `score > best_score`). -/
def snackScan (over_key : String) (picks : List Meal) : Option Nat × Int :=
  picks.enum.foldl
    (fun acc im =>
      if im.2.meal_type ≠ "snack" ∨ im.2.tags.contains "adjustment" then acc
      else if dropScore over_key im.2 > acc.2 then (some im.1, dropScore over_key im.2)
      else acc)
    (none, -1)

/-- The `for _ in range(max_adjustments)` loop of `macro_rebalance_day`:
break once `converged`; otherwise append a fresh copy of the lever for the
worst macro (its `tags` extended with `"adjustment"`), then, if calories
overshot the band, drop the best ordinary snack or back the lever out. -/
def rebalanceLoop (kt pt ct ft : Int) : Nat → List Meal → List Meal
  | 0, picks => picks
  | fuel + 1, picks =>
      if converged kt pt ct ft picks then picks
      else
        let key := worstKey (pt - totalsP picks) (ct - totalsC picks) (ft - totalsF picks)
        let lever := { LEVERS key with tags := (LEVERS key).tags ++ ["adjustment"] }
        let picks1 := picks ++ [lever]
        if totalsK picks1 > upperB kt then
          let over_key := if totalsC picks1 > ct then "C"
            else if totalsF picks1 > ft then "F" else "K"
          match (snackScan over_key picks1).1 with
          | some ix => rebalanceLoop kt pt ct ft fuel (picks1.eraseIdx ix)
          | none => rebalanceLoop kt pt ct ft fuel picks1.dropLast
        else rebalanceLoop kt pt ct ft fuel picks1

/-- `macro_rebalance_day(picks, kcal_target, macro_targets,
max_adjustments=4)` from app.py (named without the source's `macro_`
prefix).  The `picks[:]` copy is the identity on immutable list values;
the no-mutation behaviour itself is settled on the heap model below. -/
def rebalance_day (picks : List Meal) (kt : Int) (mtg : Int × Int × Int) :
    List Meal :=
  rebalanceLoop kt mtg.1 mtg.2.1 mtg.2.2 4 picks

/-- Protein density `pd(m) = m["P"] / max(1.0, m["K"])` from app.py's
`pick_day_plan`. -/
def pd (m : Meal) : ℚ := (m.P : ℚ) / max 1 (m.K : ℚ)

/-- `sorted(l, key=pd, reverse=True)`: stable sort, descending by protein
density (only the underlying multiset matters for the theorems below). -/
def sortByPd (l : List Meal) : List Meal :=
  l.insertionSort (fun a b => pd b ≤ pd a)

/-- `sorted_by_type.get(mt) or sorted_global` in app.py's `pick_day_plan`:
`by_type` is built with `setdefault`, so every meal type present in the db
(and the four standard types) is a key; an empty or missing bucket falls
back to the density-sorted whole db. -/
def appBucket (meals_db : List Meal) (mt : String) : List Meal :=
  let b := sortByPd (meals_db.filter (fun m => m.meal_type == mt))
  if b.isEmpty then sortByPd meals_db else b

/-- The slot sequence of app.py's `pick_day_plan`:
`["breakfast","lunch","dinner"] + ["snack"]*(meals_per_day-3)` when
`meals_per_day >= 3` (no shuffle in this revision). -/
def appSeq (meals_per_day : Nat) : List String :=
  if meals_per_day ≥ 3 then
    ["breakfast", "lunch", "dinner"] ++ List.replicate (meals_per_day - 3) "snack"
  else if meals_per_day == 2 then ["lunch", "dinner"]
  else ["dinner"]

/-- Seeding one slot: restrict to the top half of the bucket by protein
density (`cutoff = max(3, len(bucket)//2) if len(bucket) > 3 else
len(bucket)`), then draw. -/
def seedSlot (meals_db : List Meal) (mt : String) (r : Nat) : Meal :=
  let bucket := appBucket meals_db mt
  let cutoff := if bucket.length > 3 then max 3 (bucket.length / 2) else bucket.length
  let pool := if cutoff ≠ 0 then bucket.take cutoff else bucket
  if !pool.isEmpty then rchoice pool r default else rchoice (sortByPd meals_db) r default

/-- The seeding loop `for mt in seq`, one random draw per slot starting at
stream index `i`. -/
def seedPicks (meals_db : List Meal) (seq : List String) (r : Nat → Nat)
    (i : Nat) : List Meal :=
  match seq with
  | [] => []
  | mt :: rest => seedSlot meals_db mt (r i) :: seedPicks meals_db rest r (i + 1)

/-- Mutation draw of app.py's hill-climb body: draw a slot index, then a
same-type replacement from the top-density span
(`top_span = max(5, len(bucket)//2) if len(bucket) > 5 else len(bucket)`),
giving `trial = picks[:]; trial[idx] = candidate`. -/
def climbTrial (meals_db : List Meal) (picks : List Meal) (r1 r2 : Nat) :
    List Meal :=
  let idx := r1 % picks.length
  let mt := (picks.getD idx default).meal_type
  let bucket := appBucket meals_db mt
  let top_span := if bucket.length > 5 then max 5 (bucket.length / 2) else bucket.length
  let candidate := if top_span ≠ 0 then rchoice (bucket.take top_span) r2 default
    else rchoice (sortByPd meals_db) r2 default
  picks.set idx candidate

/-- Acceptance part of one hill-climb body: the trial replaces the held
selection iff its `_score_plan` is strictly lower than `best_score`. -/
def climbStep (meals_db : List Meal) (kt pt ct ft : ℚ) (picks : List Meal)
    (best : ℚ) (r1 r2 : Nat) : List Meal × ℚ :=
  let trial := climbTrial meals_db picks r1 r2
  let ns := score_plan trial kt pt ct ft
  if ns < best then (trial, ns) else (picks, best)

/-- The early-exit test checked after every accepted mutation: calories in
the ±5% band and each macro-gram total within its absolute/relative
tolerance. -/
def earlyExit (kt pt ct ft : Int) (picks : List Meal) : Bool :=
  decide (MP.pyInt ((kt : ℚ) * 0.95) ≤ totalsK picks) &&
  decide (totalsK picks ≤ MP.pyInt ((kt : ℚ) * 1.05)) &&
  decide (|(totalsP picks : ℚ) - (pt : ℚ)| ≤ max 6 (0.06 * (pt : ℚ))) &&
  decide (|(totalsC picks : ℚ) - (ct : ℚ)| ≤ max 8 (0.08 * (ct : ℚ))) &&
  decide (|(totalsF picks : ℚ) - (ft : ℚ)| ≤ max 6 (0.06 * (ft : ℚ)))

/-- The `while attempts > 0` hill-climb of app.py's `pick_day_plan`
(`attempts = 350` is the fuel, two stream draws per iteration); on an
accepted mutation the early-exit test may break out of the loop. -/
def climbLoop (meals_db : List Meal) (kt pt ct ft : Int) (r : Nat → Nat) :
    Nat → Nat → List Meal → ℚ → List Meal × ℚ
  | 0, _, picks, best => (picks, best)
  | fuel + 1, i, picks, best =>
      let s := climbStep meals_db (kt : ℚ) (pt : ℚ) (ct : ℚ) (ft : ℚ) picks best
        (r i) (r (i + 1))
      if s.2 < best ∧ earlyExit kt pt ct ft s.1 then s
      else climbLoop meals_db kt pt ct ft r fuel (i + 2) s.1 s.2

/-- `min(pool_idxs, key=lambda i: pd(picks[i]))`: first index with the
minimal density (Python's `min` keeps the earliest minimum). -/
def argminPd (picks : List Meal) : List Nat → Nat
  | [] => 0
  | i :: rest =>
      rest.foldl
        (fun acc j => if pd (picks.getD j default) < pd (picks.getD acc default)
          then j else acc) i

/-- The "last-mile" protein fix after the hill-climb: when protein is
still short by more than `max(8, 0.06*p_t)`, replace the least-dense
index (preferring snacks) by the first same-type candidate at least 1.25×
denser, falling back to the densest item of the bucket. -/
def lastMile (meals_db : List Meal) (pt : Int) (picks : List Meal) : List Meal :=
  if (totalsP picks : ℚ) < (pt : ℚ) - max 8 (0.06 * (pt : ℚ)) then
    let indices := List.range picks.length
    let snack_idxs := indices.filter (fun i => (picks.getD i default).meal_type == "snack")
    let pool_idxs := if !snack_idxs.isEmpty then snack_idxs else indices
    let victim_idx := argminPd picks pool_idxs
    let victim := picks.getD victim_idx default
    let candidate_bucket := appBucket meals_db victim.meal_type
    let hp := (candidate_bucket.find? (fun m => pd m ≥ pd victim * 1.25)).getD
      (candidate_bucket.getD 0 default)
    picks.set victim_idx hp
  else picks

/-- `pick_day_plan(target_kcal, meals_db, meals_per_day, macro_targets)`
from app.py: empty-db guard, seeding, 350-step hill-climb, last-mile
protein fix; returns the picks and their summed calories (the running
`total_k` always equals the current selection's calorie sum). -/
def pick_day_plan (target_kcal : Int) (meals_db : List Meal)
    (meals_per_day : Nat) (mtg : Option (Int × Int × Int)) (r : Nat → Nat) :
    List Meal × Int :=
  if meals_db.isEmpty then ([], 0)
  else
    let pt := (mtg.getD (0, 0, 0)).1
    let ct := (mtg.getD (0, 0, 0)).2.1
    let ft := (mtg.getD (0, 0, 0)).2.2
    let seq := appSeq meals_per_day
    let picks := seedPicks meals_db seq r 0
    let best := score_plan picks (target_kcal : ℚ) (pt : ℚ) (ct : ℚ) (ft : ℚ)
    let res := climbLoop meals_db target_kcal pt ct ft r 350 seq.length picks best
    let final := lastMile meals_db pt res.1
    (final, totalsK final)

/-- `aggregate_grocery_list(plan)` from app.py: the same
ingredient-occurrence tally as planner.py's `aggregate_grocery`, with the
`counts` dict modelled as a total lookup function. -/
def aggregate_grocery_list (plan : List (List Meal)) : String → Nat :=
  plan.foldl
    (fun o day => day.foldl (fun o' meal => meal.ingredients.foldl MP.bump o') o)
    (fun _ => 0)

/-!
Heap model of `macro_rebalance_day`, used to settle its frame behaviour.
Python meal dicts live in a heap addressed by `Nat`; the caller's
selection is a list of addresses, and the three `MACRO_LEVERS` records
sit at caller-chosen addresses.  `dict(MACRO_LEVERS[key])` allocates a
fresh record at the next free address, and
`lever["tags"] = lever.get("tags", []) + ["adjustment"]` mutates only
that fresh record (the `+` builds a new list, so the source record's tag
list is untouched); all other operations are reads or pure list
operations on the (copied) address list.
-/

/-- The Python heap: meal records by address, plus the next fresh
address. -/
structure Store where
  heap : Nat → Meal
  next : Nat

/-- Dereference an address list: the meal values `macro_rebalance_day`
actually computes with. -/
def deref (st : Store) (addrs : List Nat) : List Meal :=
  addrs.map st.heap

/-- Allocation of a fresh record (`dict(...)` on a heap of dicts): the
new record lives at the next free address; no existing address changes. -/
def hAlloc (st : Store) (m : Meal) : Store :=
  ⟨fun a => if a = st.next then m else st.heap a, st.next + 1⟩

/-- The over-calorie phase after appending a lever: drop the best
ordinary snack (`picks.pop(snack_ix)`) or back the lever out
(`picks.pop()`) — pure address-list surgery, no heap write. -/
def hDropPhase (kt ct ft : Int) (st1 : Store) (picks1 : List Nat) : List Nat :=
  let vals1 := deref st1 picks1
  if totalsK vals1 > upperB kt then
    let over_key := if totalsC vals1 > ct then "C"
      else if totalsF vals1 > ft then "F" else "K"
    match (snackScan over_key vals1).1 with
    | some ix => picks1.eraseIdx ix
    | none => picks1.dropLast
  else picks1

/-- The `macro_rebalance_day` loop on the heap model: identical control
flow to `rebalanceLoop`, but the selection is a list of addresses, every
field access goes through the heap, and each appended lever is a fresh
allocation copied from the lever's source record at `aP`/`aC`/`aF` (its
`tags` extended on the fresh copy only). -/
def hRebalanceLoop (aP aC aF : Nat) (kt pt ct ft : Int) :
    Nat → Store → List Nat → Store × List Nat
  | 0, st, picks => (st, picks)
  | fuel + 1, st, picks =>
      if converged kt pt ct ft (deref st picks) then (st, picks)
      else
        let vals := deref st picks
        let key := worstKey (pt - totalsP vals) (ct - totalsC vals) (ft - totalsF vals)
        let src := if key = "P" then aP else if key = "C" then aC else aF
        let rec0 := st.heap src
        let st1 := hAlloc st { rec0 with tags := rec0.tags ++ ["adjustment"] }
        let picks1 := picks ++ [st.next]
        hRebalanceLoop aP aC aF kt pt ct ft fuel st1 (hDropPhase kt ct ft st1 picks1)

/-- `macro_rebalance_day` on the heap model: `picks[:]` makes the address
list the pass works on a copy of the caller's, and the loop runs with
`max_adjustments = 4`. -/
def hRebalanceDay (aP aC aF : Nat) (st : Store) (picks : List Nat)
    (kt : Int) (mtg : Int × Int × Int) : Store × List Nat :=
  hRebalanceLoop aP aC aF kt mtg.1 mtg.2.1 mtg.2.2 4 st picks

end App

/-!  Theorems.  -/

section Lemmas

/-- Banker's rounding is within half a unit of its argument. -/
theorem abs_pyRound_sub_le (q : ℚ) : |((MP.pyRound q : ℤ) : ℚ) - q| ≤ 1 / 2 := by
  simp only [MP.pyRound]
  have h0 : (0 : ℚ) ≤ q - (⌊q⌋ : ℚ) := sub_nonneg.2 (Int.floor_le q)
  have h1 : q - (⌊q⌋ : ℚ) < 1 := by
    have := Int.lt_floor_add_one q
    linarith
  split_ifs with hf hg he
  · rw [abs_sub_comm, abs_of_nonneg h0]
    linarith
  · push_cast
    rw [abs_of_nonneg (by linarith)]
    linarith
  · rw [abs_sub_comm, abs_of_nonneg h0]
    linarith
  · push_cast
    rw [abs_of_nonneg (by linarith)]
    linarith

end Lemmas

/-- Claim C8: for every positive `targetKcal`, the gram targets returned
by `grams_from_kcal` with the default 0.40/0.30/0.30 ratios satisfy
`|4*P + 4*C + 9*F - targetKcal| ≤ 10` kcal. -/
theorem C8_grams_round_trip (T : ℚ) (_hT : 0 < T) :
    |4 * (((MP.grams_from_kcal T).1 : ℤ) : ℚ) +
      4 * (((MP.grams_from_kcal T).2.1 : ℤ) : ℚ) +
      9 * (((MP.grams_from_kcal T).2.2 : ℤ) : ℚ) - T| ≤ 10 := by
  have e1 := abs_pyRound_sub_le (T * 0.40 / 4)
  have e2 := abs_pyRound_sub_le (T * 0.30 / 4)
  have e3 := abs_pyRound_sub_le (T * 0.30 / 9)
  unfold MP.grams_from_kcal
  set g1 : ℚ := ((MP.pyRound (T * 0.40 / 4) : ℤ) : ℚ)
  set g2 : ℚ := ((MP.pyRound (T * 0.30 / 4) : ℤ) : ℚ)
  set g3 : ℚ := ((MP.pyRound (T * 0.30 / 9) : ℤ) : ℚ)
  have key : 4 * g1 + 4 * g2 + 9 * g3 - T =
      4 * (g1 - T * 0.40 / 4) + (4 * (g2 - T * 0.30 / 4) + 9 * (g3 - T * 0.30 / 9)) := by
    ring
  rw [key]
  calc |4 * (g1 - T * 0.40 / 4) + (4 * (g2 - T * 0.30 / 4) + 9 * (g3 - T * 0.30 / 9))|
      ≤ |4 * (g1 - T * 0.40 / 4)| + |4 * (g2 - T * 0.30 / 4) + 9 * (g3 - T * 0.30 / 9)| :=
        abs_add _ _
    _ ≤ |4 * (g1 - T * 0.40 / 4)| + (|4 * (g2 - T * 0.30 / 4)| + |9 * (g3 - T * 0.30 / 9)|) :=
        add_le_add_left (abs_add _ _) _
    _ = 4 * |g1 - T * 0.40 / 4| + (4 * |g2 - T * 0.30 / 4| + 9 * |g3 - T * 0.30 / 9|) := by
        rw [abs_mul, abs_mul, abs_mul]
        norm_num
    _ ≤ 4 * (1 / 2) + (4 * (1 / 2) + 9 * (1 / 2)) := by
        gcongr
    _ ≤ 10 := by norm_num

/-- Witness for C8 at `targetKcal = 2000`. -/
theorem C8_grams_round_trip_witness :
    (0 : ℚ) < 2000 ∧
      |4 * (((MP.grams_from_kcal 2000).1 : ℤ) : ℚ) +
        4 * (((MP.grams_from_kcal 2000).2.1 : ℤ) : ℚ) +
        9 * (((MP.grams_from_kcal 2000).2.2 : ℤ) : ℚ) - 2000| ≤ 10 :=
  ⟨by norm_num, C8_grams_round_trip 2000 (by norm_num)⟩

/-- Unfolding one counter update. -/
theorem bump_apply (out : String → Nat) (it s : String) :
    MP.bump out it s = out s + (if s = it then 1 else 0) := by
  unfold MP.bump
  split_ifs with h
  · rw [h]
  · rfl

/-- The ingredient fold splits off its initial dict. -/
theorem ingFold_split (its : List String) (out : String → Nat) (s : String) :
    (its.foldl MP.bump out) s = out s + (its.foldl MP.bump (fun _ => 0)) s := by
  induction its generalizing out with
  | nil => simp
  | cons a l ih =>
      simp only [List.foldl_cons]
      rw [ih (MP.bump out a), ih (MP.bump (fun _ => 0) a), bump_apply, bump_apply]
      omega

/-- The per-day fold over meals splits off its initial dict. -/
theorem mealFold_split (day : List Meal) (out : String → Nat) (s : String) :
    (day.foldl (fun o' meal => meal.ingredients.foldl MP.bump o') out) s =
      out s + (day.foldl (fun o' meal => meal.ingredients.foldl MP.bump o') (fun _ => 0)) s := by
  induction day generalizing out with
  | nil => simp
  | cons m l ih =>
      simp only [List.foldl_cons]
      rw [ih (m.ingredients.foldl MP.bump out),
        ih (m.ingredients.foldl MP.bump (fun _ => 0)),
        ingFold_split m.ingredients out s, ingFold_split m.ingredients (fun _ => 0) s]
      omega

/-- The whole-plan fold splits off its initial dict. -/
theorem aggFrom_split (plan : List (List Meal)) (out : String → Nat) (s : String) :
    MP.aggFrom out plan s = out s + MP.aggFrom (fun _ => 0) plan s := by
  induction plan generalizing out with
  | nil => simp [MP.aggFrom]
  | cons d l ih =>
      simp only [MP.aggFrom, List.foldl_cons] at ih ⊢
      rw [ih (d.foldl (fun o' meal => meal.ingredients.foldl MP.bump o') out),
        ih (d.foldl (fun o' meal => meal.ingredients.foldl MP.bump o') (fun _ => 0)),
        mealFold_split d out s, mealFold_split d (fun _ => 0) s]
      omega

/-- The two tally implementations are the same function. -/
theorem agg_eq : App.aggregate_grocery_list = MP.aggregate_grocery := rfl

/-- Claim C9: grocery aggregation is additive over plan concatenation,
key-wise, for both `aggregate_grocery` (planner.py) and
`aggregate_grocery_list` (app.py). -/
theorem C9_aggregate_additive (A B : List (List Meal)) (s : String) :
    MP.aggregate_grocery (A ++ B) s =
      MP.aggregate_grocery A s + MP.aggregate_grocery B s ∧
    App.aggregate_grocery_list (A ++ B) s =
      App.aggregate_grocery_list A s + App.aggregate_grocery_list B s := by
  have h : MP.aggregate_grocery (A ++ B) s =
      MP.aggregate_grocery A s + MP.aggregate_grocery B s := by
    unfold MP.aggregate_grocery
    unfold MP.aggFrom
    rw [List.foldl_append]
    have := aggFrom_split B
      (A.foldl (fun o day => day.foldl (fun o' meal => meal.ingredients.foldl MP.bump o') o)
        (fun _ => 0)) s
    unfold MP.aggFrom at this
    exact this
  exact ⟨h, by rw [agg_eq]; exact h⟩

/-- Characterisation of the shared per-meal inclusion test. -/
theorem keepMeal_iff (prefs : Prefs) (excludes : List String) (m : Meal) :
    keepMeal prefs excludes m = true ↔
      (prefs.vegan = true → m.tags.contains "vegan" = true) ∧
      (prefs.vegetarian = true →
        (m.tags.contains "vegetarian" = true ∨ m.tags.contains "vegan" = true)) ∧
      (prefs.dairy_free = true →
        (m.tags.contains "dairy_free" = true ∨ m.tags.contains "vegan" = true)) ∧
      (∀ x ∈ excludes, strContains (mealText m) x = false) := by
  obtain ⟨veg, vg, df, gf, ex⟩ := prefs
  cases veg <;> cases vg <;> cases df <;>
    simp [keepMeal, List.any_eq_false, and_assoc, and_comm, and_left_comm, or_comm]

/-- The `if excludes:`-guarded scan of app.py's `filter_meals` is the same
condition as the unguarded scan. -/
theorem guard_any_iff (l : List String) (t : String) :
    (l.isEmpty || !(l.any (fun x => strContains t x))) = true ↔
      ∀ x ∈ l, strContains t x = false := by
  cases l with
  | nil => simp
  | cons a l =>
      simp only [List.isEmpty_cons, Bool.false_or, Bool.not_eq_true', List.any_eq_false,
        Bool.not_eq_true]

/-- App.py's filter predicate coincides with the shared `keepMeal` test. -/
theorem appPred_eq_keepMeal (prefs : Prefs) (m : Meal) :
    ((!prefs.vegetarian || m.tags.contains "vegetarian" || m.tags.contains "vegan") &&
     (!prefs.vegan || m.tags.contains "vegan") &&
     (!prefs.dairy_free || m.tags.contains "dairy_free" || m.tags.contains "vegan") &&
     ((parseExcludes prefs.excludes).isEmpty ||
       !((parseExcludes prefs.excludes).any (fun x => strContains (mealText m) x)))) =
    keepMeal prefs (parseExcludes prefs.excludes) m := by
  unfold keepMeal
  cases h : (parseExcludes prefs.excludes) with
  | nil => simp
  | cons a l => simp

/-- Claim C3: a meal is in the filtered output (before any empty-set
fallback) iff it passes the vegan/vegetarian/dairy-free tag requirements
and no parsed exclusion substring occurs in the lowercase concatenation of
its name and ingredients — for planner.py's `filter_meals` (whose
pre-fallback output is `filterCore`) and for app.py's `filter_meals`
(which has no fallback at all). -/
theorem C3_filter_membership (meals : List Meal) (prefs : Prefs) (m : Meal) :
    (m ∈ MP.filterCore meals prefs ↔
      m ∈ meals ∧
        ((prefs.vegan = true → m.tags.contains "vegan" = true) ∧
         (prefs.vegetarian = true →
           (m.tags.contains "vegetarian" = true ∨ m.tags.contains "vegan" = true)) ∧
         (prefs.dairy_free = true →
           (m.tags.contains "dairy_free" = true ∨ m.tags.contains "vegan" = true)) ∧
         (∀ x ∈ parseExcludes prefs.excludes, strContains (mealText m) x = false))) ∧
    (m ∈ App.filter_meals prefs ↔
      m ∈ App.MEALS ∧
        ((prefs.vegan = true → m.tags.contains "vegan" = true) ∧
         (prefs.vegetarian = true →
           (m.tags.contains "vegetarian" = true ∨ m.tags.contains "vegan" = true)) ∧
         (prefs.dairy_free = true →
           (m.tags.contains "dairy_free" = true ∨ m.tags.contains "vegan" = true)) ∧
         (∀ x ∈ parseExcludes prefs.excludes, strContains (mealText m) x = false))) := by
  constructor
  · rw [MP.filterCore, List.mem_filter]
    exact and_congr_right (fun _ => keepMeal_iff prefs (parseExcludes prefs.excludes) m)
  · rw [App.filter_meals, List.mem_filter]
    refine and_congr_right (fun _ => ?_)
    rw [appPred_eq_keepMeal]
    exact keepMeal_iff prefs (parseExcludes prefs.excludes) m

/-- Claim C2 (amended part): planner.py's `filter_meals` is never empty on
a non-empty catalog — when the checks eliminate every meal it returns the
unfiltered catalog itself. -/
theorem C2_filter_fallback (meals : List Meal) (prefs : Prefs)
    (h : meals ≠ []) :
    MP.filter_meals meals prefs ≠ [] ∧
      (MP.filterCore meals prefs = [] → MP.filter_meals meals prefs = meals) := by
  unfold MP.filter_meals
  by_cases hc : (MP.filterCore meals prefs).isEmpty = true
  · rw [if_pos hc]
    exact ⟨h, fun _ => rfl⟩
  · rw [if_neg hc]
    refine ⟨fun he => hc ?_, fun he => absurd (show (MP.filterCore meals prefs).isEmpty = true
      by rw [he]; rfl) hc⟩
    rw [he]
    rfl

/-- Witness for C2 on a one-meal catalog. -/
theorem C2_filter_fallback_witness :
    ([(default : Meal)] ≠ [] ∧ MP.filter_meals [default] {} ≠ []) :=
  ⟨List.cons_ne_nil _ _,
    (C2_filter_fallback [default] {} (List.cons_ne_nil _ _)).1⟩

set_option maxRecDepth 40000 in
/-- Counterexample for C2 as stated: app.py's `filter_meals` (whose
catalog is the non-empty global `MEALS`) returns the empty list — not the
unfiltered catalog — for vegan preferences whose exclusions knock out all
four vegan meals. -/
theorem C2_filter_fallback_cex :
    App.filter_meals ⟨false, true, false, false, "tofu,hummus,chickpea"⟩ = [] ∧
      App.MEALS ≠ [] := by
  constructor
  · decide
  · simp [App.MEALS]

/-- Claim C7 (amended part): planner.py's `_score` penalises a deviation
of `d` with per-gram magnitudes ordered protein (2.0) ≥ carbs (1.5) ≥ fat
(1.5) ≥ calories (1.0 per kcal): against a baseline of exact totals,
shifting each target by `d` costs accordingly. -/
theorem C7_score_weight_order (picks : List Meal) (d : ℚ) (hd : 0 ≤ d) :
    MP.score picks (totalsK picks : ℚ) ((totalsP picks : ℚ) - d)
        (totalsC picks : ℚ) (totalsF picks : ℚ) ≥
      MP.score picks (totalsK picks : ℚ) (totalsP picks : ℚ)
        ((totalsC picks : ℚ) - d) (totalsF picks : ℚ) ∧
    MP.score picks (totalsK picks : ℚ) (totalsP picks : ℚ)
        ((totalsC picks : ℚ) - d) (totalsF picks : ℚ) ≥
      MP.score picks (totalsK picks : ℚ) (totalsP picks : ℚ)
        (totalsC picks : ℚ) ((totalsF picks : ℚ) - d) ∧
    MP.score picks (totalsK picks : ℚ) (totalsP picks : ℚ)
        (totalsC picks : ℚ) ((totalsF picks : ℚ) - d) ≥
      MP.score picks ((totalsK picks : ℚ) - d) (totalsP picks : ℚ)
        (totalsC picks : ℚ) (totalsF picks : ℚ) := by
  unfold MP.score
  simp only [sub_self, abs_zero, sub_sub_cancel, abs_of_nonneg hd]
  refine ⟨by linarith, by linarith, by linarith⟩

/-- Witness for C7 at the empty selection and `d = 1`. -/
theorem C7_score_weight_order_witness :
    (0 : ℚ) ≤ 1 ∧
      (MP.score [] (totalsK [] : ℚ) ((totalsP [] : ℚ) - 1) (totalsC [] : ℚ)
          (totalsF [] : ℚ) ≥
        MP.score [] (totalsK [] : ℚ) (totalsP [] : ℚ) ((totalsC [] : ℚ) - 1)
          (totalsF [] : ℚ) ∧
      MP.score [] (totalsK [] : ℚ) (totalsP [] : ℚ) ((totalsC [] : ℚ) - 1)
          (totalsF [] : ℚ) ≥
        MP.score [] (totalsK [] : ℚ) (totalsP [] : ℚ) (totalsC [] : ℚ)
          ((totalsF [] : ℚ) - 1) ∧
      MP.score [] (totalsK [] : ℚ) (totalsP [] : ℚ) (totalsC [] : ℚ)
          ((totalsF [] : ℚ) - 1) ≥
        MP.score [] ((totalsK [] : ℚ) - 1) (totalsP [] : ℚ) (totalsC [] : ℚ)
          (totalsF [] : ℚ)) :=
  ⟨by norm_num, C7_score_weight_order [] 1 (by norm_num)⟩

/-- Claim C4 (amended): an iteration of the tightening pass stops and
returns the selection unchanged when the totals satisfy its full break
test — calories inside the `[int(0.97*kt), int(1.03*kt)]` band AND all
three macro-gram gaps inside their tolerances — at the start of the
iteration, for any remaining step budget (so in every iteration of
`macro_rebalance_day`). -/
theorem C4_rebalance_stop (kt pt ct ft : Int) (picks : List Meal) (fuel : Nat)
    (h : App.converged kt pt ct ft picks = true) :
    App.rebalanceLoop kt pt ct ft fuel picks = picks ∧
      App.rebalance_day picks kt (pt, ct, ft) = picks := by
  have hstop : ∀ n : Nat, App.rebalanceLoop kt pt ct ft n picks = picks := by
    intro n
    cases n with
    | zero => rfl
    | succ m =>
        unfold App.rebalanceLoop
        rw [if_pos h]
  exact ⟨hstop fuel, hstop 4⟩


/-- Allocation never touches an existing address. -/
theorem hAlloc_frame (st : App.Store) (m : Meal) (a : Nat) (ha : a < st.next) :
    (App.hAlloc st m).heap a = st.heap a := by
  unfold App.hAlloc
  simp only
  rw [if_neg (Nat.ne_of_lt ha)]

/-- The rebalance loop on the heap model only writes fresh addresses. -/
theorem hRebalanceLoop_frame (aP aC aF : Nat) (kt pt ct ft : Int) (fuel : Nat)
    (st : App.Store) (picks : List Nat) (a : Nat) (ha : a < st.next) :
    (App.hRebalanceLoop aP aC aF kt pt ct ft fuel st picks).1.heap a = st.heap a ∧
      st.next ≤ (App.hRebalanceLoop aP aC aF kt pt ct ft fuel st picks).1.next := by
  induction fuel generalizing st picks with
  | zero => exact ⟨rfl, Nat.le_refl _⟩
  | succ n ih =>
      rw [App.hRebalanceLoop]
      by_cases hc : App.converged kt pt ct ft (App.deref st picks) = true
      · rw [if_pos hc]
        exact ⟨rfl, Nat.le_refl _⟩
      · rw [if_neg hc]
        have key : ∀ (m : Meal) (picks' : List Nat),
            (App.hRebalanceLoop aP aC aF kt pt ct ft n (App.hAlloc st m) picks').1.heap a =
              st.heap a ∧
            st.next ≤
              (App.hRebalanceLoop aP aC aF kt pt ct ft n (App.hAlloc st m) picks').1.next := by
          intro m picks'
          have h1 := ih (App.hAlloc st m) picks' (Nat.lt_succ_of_lt ha)
          exact ⟨h1.1.trans (hAlloc_frame st m a ha), Nat.le_trans (Nat.le_succ _) h1.2⟩
        exact key _ _

/-- Claim C10: the tightening pass on the heap model never mutates any
pre-existing record — every address allocated before the call (the
caller's selection records and the global `MACRO_LEVERS` records at
`aP`/`aC`/`aF` included) holds the same record afterwards, and the pass
returns a fresh address list, leaving the caller's list value untouched. -/
theorem C10_rebalance_no_mutation (aP aC aF : Nat) (st : App.Store)
    (picks : List Nat) (kt : Int) (mtg : Int × Int × Int) (a : Nat)
    (ha : a < st.next) :
    (App.hRebalanceDay aP aC aF st picks kt mtg).1.heap a = st.heap a ∧
      st.next ≤ (App.hRebalanceDay aP aC aF st picks kt mtg).1.next := by
  unfold App.hRebalanceDay
  exact hRebalanceLoop_frame aP aC aF kt mtg.1 mtg.2.1 mtg.2.2 4 st picks a ha

/-- One planner.py loop body holds the measure non-increasing and keeps
`best` tracking the score of the held picks (macro case). -/
theorem MP_step_mono (meals_db : List Meal) (kt : Int)
    (mtg : Option (Int × Int × Int)) (picks : List Meal) (best : ℚ) (r1 r2 : Nat)
    (hb : ∀ p c f, mtg = some (p, c, f) →
      best = MP.score picks (kt : ℚ) (p : ℚ) (c : ℚ) (f : ℚ)) :
    MP.curScore kt mtg (MP.step meals_db kt mtg picks best r1 r2).1 ≤
      MP.curScore kt mtg picks ∧
    (MP.step meals_db kt mtg picks best r1 r2).2 ≤ best ∧
    (∀ p c f, mtg = some (p, c, f) →
      (MP.step meals_db kt mtg picks best r1 r2).2 =
        MP.score (MP.step meals_db kt mtg picks best r1 r2).1 (kt : ℚ) (p : ℚ) (c : ℚ) (f : ℚ)) := by
  rcases mtg with _ | ⟨p, c, f⟩
  · simp only [MP.step, MP.curScore]
    split_ifs with h
    · exact ⟨le_of_lt h, le_refl _, fun p c f h => by simp at h⟩
    · exact ⟨le_refl _, le_refl _, fun p c f h => by simp at h⟩
  · have hb' := hb p c f rfl
    simp only [MP.step, MP.curScore]
    split_ifs with h
    · refine ⟨?_, le_of_lt (hb' ▸ h), fun p' c' f' h' => ?_⟩
      · rw [← hb']
        exact le_of_lt h
      · obtain ⟨rfl, rfl, rfl⟩ : p = p' ∧ c = c' ∧ f = f' := by
          injection h' with h''
          exact ⟨congrArg (·.1) h'', congrArg (·.2.1) h'', congrArg (·.2.2) h''⟩
        rfl
    · refine ⟨le_refl _, le_refl _, fun p' c' f' h' => ?_⟩
      obtain ⟨rfl, rfl, rfl⟩ : p = p' ∧ c = c' ∧ f = f' := by
        injection h' with h''
        exact ⟨congrArg (·.1) h'', congrArg (·.2.1) h'', congrArg (·.2.2) h''⟩
      exact hb'

/-- The planner.py loop never worsens the measure of the held selection. -/
theorem MP_loop_mono (meals_db : List Meal) (kt : Int)
    (mtg : Option (Int × Int × Int)) (r : Nat → Nat) (fuel i : Nat)
    (picks : List Meal) (best : ℚ)
    (hb : ∀ p c f, mtg = some (p, c, f) →
      best = MP.score picks (kt : ℚ) (p : ℚ) (c : ℚ) (f : ℚ)) :
    MP.curScore kt mtg (MP.loop meals_db kt mtg r fuel i picks best) ≤
      MP.curScore kt mtg picks := by
  induction fuel generalizing i picks best with
  | zero => exact le_refl _
  | succ n ih =>
      rw [MP.loop]
      have hs := MP_step_mono meals_db kt mtg picks best (r i) (r (i + 1)) hb
      split_ifs with h
      · exact hs.1
      · exact le_trans (ih (i + 2) _ _ hs.2.2) hs.1

/-- One app.py hill-climb body holds the score non-increasing and keeps
`best_score` tracking the score of the held picks. -/
theorem App_climbStep_mono (meals_db : List Meal) (kt pt ct ft : ℚ)
    (picks : List Meal) (best : ℚ) (r1 r2 : Nat)
    (hb : best = App.score_plan picks kt pt ct ft) :
    App.score_plan (App.climbStep meals_db kt pt ct ft picks best r1 r2).1 kt pt ct ft ≤
      App.score_plan picks kt pt ct ft ∧
    (App.climbStep meals_db kt pt ct ft picks best r1 r2).2 ≤ best ∧
    (App.climbStep meals_db kt pt ct ft picks best r1 r2).2 =
      App.score_plan (App.climbStep meals_db kt pt ct ft picks best r1 r2).1 kt pt ct ft := by
  simp only [App.climbStep]
  split_ifs with h
  · exact ⟨le_of_lt (hb ▸ h), le_of_lt h, rfl⟩
  · exact ⟨le_refl _, le_refl _, hb⟩

/-- The app.py hill-climb never worsens the score of the held selection. -/
theorem App_climbLoop_mono (meals_db : List Meal) (kt pt ct ft : Int)
    (r : Nat → Nat) (fuel i : Nat) (picks : List Meal) (best : ℚ)
    (hb : best = App.score_plan picks (kt : ℚ) (pt : ℚ) (ct : ℚ) (ft : ℚ)) :
    App.score_plan (App.climbLoop meals_db kt pt ct ft r fuel i picks best).1
        (kt : ℚ) (pt : ℚ) (ct : ℚ) (ft : ℚ) ≤
      App.score_plan picks (kt : ℚ) (pt : ℚ) (ct : ℚ) (ft : ℚ) := by
  induction fuel generalizing i picks best with
  | zero => exact le_refl _
  | succ n ih =>
      rw [App.climbLoop]
      have hs := App_climbStep_mono meals_db (kt : ℚ) (pt : ℚ) (ct : ℚ) (ft : ℚ)
        picks best (r i) (r (i + 1)) hb
      split_ifs with h
      · exact hs.1
      · exact le_trans (ih (i + 2) _ _ hs.2.2) hs.1

/-- Claim C5: in both local-search loops a mutated selection replaces the
held one iff its score is strictly lower than the current best (ties are
rejected — the step function literally is the strict-improvement
conditional), and consequently the score of the held selection is
non-increasing across all mutation attempts of the whole loop. -/
theorem C5_strict_improvement (meals_db picks : List Meal) (best : ℚ)
    (kt pt ct ft : Int) (p c f : Int) (r1 r2 : Nat) (r : Nat → Nat) (fuel i : Nat) :
    (App.climbStep meals_db (kt : ℚ) (pt : ℚ) (ct : ℚ) (ft : ℚ) picks best r1 r2 =
      if App.score_plan (App.climbTrial meals_db picks r1 r2)
          (kt : ℚ) (pt : ℚ) (ct : ℚ) (ft : ℚ) < best
      then (App.climbTrial meals_db picks r1 r2,
        App.score_plan (App.climbTrial meals_db picks r1 r2)
          (kt : ℚ) (pt : ℚ) (ct : ℚ) (ft : ℚ))
      else (picks, best)) ∧
    (MP.step meals_db kt (some (p, c, f)) picks best r1 r2 =
      if MP.score (MP.stepTrial meals_db picks r1 r2)
          (kt : ℚ) (p : ℚ) (c : ℚ) (f : ℚ) < best
      then (MP.stepTrial meals_db picks r1 r2,
        MP.score (MP.stepTrial meals_db picks r1 r2) (kt : ℚ) (p : ℚ) (c : ℚ) (f : ℚ))
      else (picks, best)) ∧
    (MP.step meals_db kt none picks best r1 r2 =
      if |(totalsK (MP.stepTrial meals_db picks r1 r2) : ℚ) - (kt : ℚ)| <
          |(totalsK picks : ℚ) - (kt : ℚ)|
      then (MP.stepTrial meals_db picks r1 r2, best)
      else (picks, best)) ∧
    (best = App.score_plan picks (kt : ℚ) (pt : ℚ) (ct : ℚ) (ft : ℚ) →
      App.score_plan (App.climbLoop meals_db kt pt ct ft r fuel i picks best).1
          (kt : ℚ) (pt : ℚ) (ct : ℚ) (ft : ℚ) ≤
        App.score_plan picks (kt : ℚ) (pt : ℚ) (ct : ℚ) (ft : ℚ)) ∧
    (∀ mtg : Option (Int × Int × Int),
      (∀ p' c' f', mtg = some (p', c', f') →
        best = MP.score picks (kt : ℚ) (p' : ℚ) (c' : ℚ) (f' : ℚ)) →
      MP.curScore kt mtg (MP.loop meals_db kt mtg r fuel i picks best) ≤
        MP.curScore kt mtg picks) := by
  refine ⟨rfl, rfl, rfl, ?_, ?_⟩
  · exact App_climbLoop_mono meals_db kt pt ct ft r fuel i picks best
  · exact fun mtg hb => MP_loop_mono meals_db kt mtg r fuel i picks best hb

/-- For `meals_per_day ≥ 3` the app.py slot sequence is the 3-meal
sequence plus `(meals_per_day - 3)` snack slots. -/
theorem appSeq_eq (m : Nat) (h : 3 ≤ m) :
    App.appSeq m = ["breakfast", "lunch", "dinner"] ++ List.replicate (m - 3) "snack" := by
  unfold App.appSeq
  rw [if_pos h]

theorem appSeq_length (m : Nat) (h : 3 ≤ m) : (App.appSeq m).length = m := by
  rw [appSeq_eq m h]
  simp
  omega

theorem App_seedPicks_length (db : List Meal) (seq : List String) (r : Nat → Nat)
    (i : Nat) : (App.seedPicks db seq r i).length = seq.length := by
  induction seq generalizing i with
  | nil => rfl
  | cons mt rest ih => simp [App.seedPicks, ih]

theorem App_climbTrial_length (db picks : List Meal) (r1 r2 : Nat) :
    (App.climbTrial db picks r1 r2).length = picks.length := by
  simp [App.climbTrial]

theorem App_climbStep_length (db : List Meal) (kt pt ct ft : ℚ)
    (picks : List Meal) (best : ℚ) (r1 r2 : Nat) :
    (App.climbStep db kt pt ct ft picks best r1 r2).1.length = picks.length := by
  simp only [App.climbStep]
  split_ifs with h
  · exact App_climbTrial_length db picks r1 r2
  · rfl

theorem App_climbLoop_length (db : List Meal) (kt pt ct ft : Int) (r : Nat → Nat)
    (fuel i : Nat) (picks : List Meal) (best : ℚ) :
    (App.climbLoop db kt pt ct ft r fuel i picks best).1.length = picks.length := by
  induction fuel generalizing i picks best with
  | zero => rfl
  | succ n ih =>
      rw [App.climbLoop]
      split_ifs with h
      · exact App_climbStep_length db _ _ _ _ picks best (r i) (r (i + 1))
      · rw [ih]
        exact App_climbStep_length db _ _ _ _ picks best (r i) (r (i + 1))

theorem App_lastMile_length (db : List Meal) (pt : Int) (picks : List Meal) :
    (App.lastMile db pt picks).length = picks.length := by
  unfold App.lastMile
  split_ifs with h
  · simp
  · rfl

/-- Claim C1 (amended part): for app.py's `pick_day_plan` with
`mealsPerDay ≥ 4` and a non-empty pool, the slot sequence is breakfast,
lunch, dinner plus exactly `(mealsPerDay - 3)` snack slots, and the
returned selection has length `mealsPerDay`, for every random stream. -/
theorem C1_slots_length (kt : Int) (db : List Meal) (m : Nat)
    (mtg : Option (Int × Int × Int)) (r : Nat → Nat)
    (hm : 4 ≤ m) (hdb : db ≠ []) :
    App.appSeq m = ["breakfast", "lunch", "dinner"] ++ List.replicate (m - 3) "snack" ∧
      (App.pick_day_plan kt db m mtg r).1.length = m := by
  have h3 : 3 ≤ m := le_trans (by omega) hm
  refine ⟨appSeq_eq m h3, ?_⟩
  unfold App.pick_day_plan
  rw [if_neg (by simpa using hdb)]
  rw [App_lastMile_length, App_climbLoop_length, App_seedPicks_length]
  exact appSeq_length m h3

/-- Witness for C1 at `mealsPerDay = 4` on a one-meal pool. -/
theorem C1_slots_length_witness :
    App.appSeq 4 = ["breakfast", "lunch", "dinner"] ++ List.replicate (4 - 3) "snack" ∧
      (App.pick_day_plan 2000 [default] 4 none (fun _ => 0)).1.length = 4 :=
  C1_slots_length 2000 [default] 4 none (fun _ => 0) (by omega) (by simp)

theorem MP_seedPicks_length (db : List Meal) (seq : List String) (r : Nat → Nat)
    (i : Nat) : (MP.seedPicks db seq r i).length = seq.length := by
  induction seq generalizing i with
  | nil => rfl
  | cons mt rest ih => simp [MP.seedPicks, ih]

theorem MP_step_length (db : List Meal) (kt : Int) (mtg : Option (Int × Int × Int))
    (picks : List Meal) (best : ℚ) (r1 r2 : Nat) :
    (MP.step db kt mtg picks best r1 r2).1.length = picks.length := by
  rcases mtg with _ | ⟨p, c, f⟩ <;> simp only [MP.step, MP.stepTrial] <;>
    split_ifs <;> simp

theorem MP_loop_length (db : List Meal) (kt : Int) (mtg : Option (Int × Int × Int))
    (r : Nat → Nat) (fuel i : Nat) (picks : List Meal) (best : ℚ) :
    (MP.loop db kt mtg r fuel i picks best).length = picks.length := by
  induction fuel generalizing i picks best with
  | zero => rfl
  | succ n ih =>
      rw [MP.loop]
      split_ifs with h
      · exact MP_step_length db kt mtg picks best (r i) (r (i + 1))
      · rw [ih]
        exact MP_step_length db kt mtg picks best (r i) (r (i + 1))

/-- The selection planner.py's `pick_day_plan` returns always has the
length of the (shuffled) slot sequence. -/
theorem MP_pick_day_plan_length (kt : Int) (db : List Meal) (m : Nat)
    (mtg : Option (Int × Int × Int)) (shuffle : List String → List String)
    (r : Nat → Nat) :
    (MP.pick_day_plan kt db m mtg shuffle r).1.length =
      (shuffle (MP.baseSeq m)).length := by
  rcases mtg with _ | ⟨p, c, f⟩ <;>
    simp only [MP.pick_day_plan] <;>
    rw [MP_loop_length, MP_seedPicks_length]

/-- Counterexample for C1 as stated: planner.py's `pick_day_plan` at
`mealsPerDay = 5` (an in-bounds value — the spec allows 2–5) fills only
the fixed four-slot sequence, so the returned selection has length 4,
not 5 (here with the identity shuffle and a constant random stream). -/
theorem C1_slots_length_cex :
    ¬ ((MP.pick_day_plan 2000 [⟨"Dinner", "dinner", 500, 30, 40, 10,
        ["dinner"], ["x"]⟩] 5 none id (fun _ => 0)).1.length = 5) := by
  rw [MP_pick_day_plan_length]
  decide

/-- A draw from a non-empty list is a member of it. -/
theorem rchoice_mem (l : List Meal) (r : Nat) (d : Meal) (h : l ≠ []) :
    rchoice l r d ∈ l := by
  unfold rchoice
  have hlen : 0 < l.length := List.length_pos.2 h
  have hlt : r % l.length < l.length := Nat.mod_lt r hlen
  rw [List.getD_eq_getElem?_getD, List.getElem?_eq_getElem hlt]
  exact List.getElem_mem hlt

theorem sortByPd_mem (l : List Meal) (x : Meal) :
    x ∈ App.sortByPd l ↔ x ∈ l := by
  unfold App.sortByPd
  exact List.mem_insertionSort _

theorem sortByPd_length (l : List Meal) :
    (App.sortByPd l).length = l.length := by
  unfold App.sortByPd
  exact List.length_insertionSort _ _

theorem sortByPd_ne (l : List Meal) (h : l ≠ []) : App.sortByPd l ≠ [] := by
  intro he
  apply h
  have := sortByPd_length l
  rw [he] at this
  exact List.length_eq_zero.1 this.symm

theorem App_appBucket_subset (db : List Meal) (mt : String) (x : Meal)
    (hx : x ∈ App.appBucket db mt) : x ∈ db := by
  simp only [App.appBucket] at hx
  split_ifs at hx with h
  · exact (sortByPd_mem db x).1 hx
  · exact List.mem_filter.1 ((sortByPd_mem _ x).1 hx) |>.1

theorem App_appBucket_ne (db : List Meal) (mt : String) (hdb : db ≠ []) :
    App.appBucket db mt ≠ [] := by
  simp only [App.appBucket]
  split_ifs with h
  · exact sortByPd_ne db hdb
  · exact fun he => by rw [he] at h; exact h rfl

theorem App_appBucket_type (db : List Meal) (mt : String)
    (h : ∃ x ∈ db, x.meal_type = mt) :
    ∀ x ∈ App.appBucket db mt, x.meal_type = mt := by
  intro x hx
  obtain ⟨w, hw, hwt⟩ := h
  have hfil : App.sortByPd (db.filter (fun m => m.meal_type == mt)) ≠ [] := by
    apply sortByPd_ne
    intro he
    have : w ∈ db.filter (fun m => m.meal_type == mt) :=
      List.mem_filter.2 ⟨hw, by simp [hwt]⟩
    rw [he] at this
    exact List.not_mem_nil w this
  simp only [App.appBucket] at hx
  rw [if_neg (by simpa using hfil)] at hx
  have := List.mem_filter.1 ((sortByPd_mem _ x).1 hx) |>.2
  simpa using this

/-- Replacing an index by an element of the same image leaves the mapped
list unchanged. -/
theorem map_set_self {α β : Type} (f : α → β) (d : α) (l : List α) (idx : Nat)
    (cand : α) (h : f cand = f (l.getD idx d)) :
    (l.set idx cand).map f = l.map f := by
  induction l generalizing idx with
  | nil => rfl
  | cons a t ih =>
      cases idx with
      | zero => simp_all
      | succ n =>
          simp only [List.set_cons_succ, List.map_cons]
          rw [ih n (by simpa using h)]

theorem ne_nil_of_not_isEmpty {l : List Meal} (h : ¬ l.isEmpty = true) : l ≠ [] :=
  fun he => h (by rw [he]; rfl)

theorem App_seedSlot_mem (db : List Meal) (mt : String) (r : Nat) (hdb : db ≠ []) :
    App.seedSlot db mt r ∈ db := by
  simp only [App.seedSlot]
  split_ifs <;>
    first
    | exact (sortByPd_mem db _).1 (rchoice_mem _ r default (sortByPd_ne db hdb))
    | (rename_i hne
       exact App_appBucket_subset db mt _ (List.take_subset _ _
        (rchoice_mem _ r default (ne_nil_of_not_isEmpty (by simpa using hne)))))
    | (rename_i hne
       exact App_appBucket_subset db mt _
        (rchoice_mem _ r default (ne_nil_of_not_isEmpty (by simpa using hne))))

theorem App_seedSlot_type (db : List Meal) (mt : String) (r : Nat)
    (h : ∃ x ∈ db, x.meal_type = mt) :
    (App.seedSlot db mt r).meal_type = mt := by
  have hdb : db ≠ [] := by
    rcases h with ⟨w, hw, _⟩
    exact fun he => List.not_mem_nil w (he ▸ hw)
  have hbne : App.appBucket db mt ≠ [] := App_appBucket_ne db mt hdb
  have hblen : 0 < (App.appBucket db mt).length := List.length_pos.2 hbne
  have hcut : (if (App.appBucket db mt).length > 3
      then max 3 ((App.appBucket db mt).length / 2)
      else (App.appBucket db mt).length) ≠ 0 := by
    split_ifs with h3 <;> omega
  have hpool : (App.appBucket db mt).take (if (App.appBucket db mt).length > 3
      then max 3 ((App.appBucket db mt).length / 2)
      else (App.appBucket db mt).length) ≠ [] := by
    apply List.ne_nil_of_length_pos
    rw [List.length_take]
    have := Nat.pos_of_ne_zero hcut
    omega
  simp only [App.seedSlot]
  rw [if_pos hcut, if_pos (by simpa using hpool)]
  exact App_appBucket_type db mt h _
    (List.take_subset _ _ (rchoice_mem _ r default hpool))

theorem App_seedPicks_mem (db : List Meal) (seq : List String) (r : Nat → Nat)
    (i : Nat) (hdb : db ≠ []) :
    ∀ x ∈ App.seedPicks db seq r i, x ∈ db := by
  induction seq generalizing i with
  | nil => intro x hx; exact absurd hx (List.not_mem_nil x)
  | cons mt rest ih =>
      intro x hx
      rcases List.mem_cons.1 hx with hx | hx
      · exact hx ▸ App_seedSlot_mem db mt (r i) hdb
      · exact ih (i + 1) x hx

theorem App_seedPicks_types (db : List Meal) (seq : List String) (r : Nat → Nat)
    (i : Nat) (h : ∀ mt ∈ seq, ∃ x ∈ db, x.meal_type = mt) :
    (App.seedPicks db seq r i).map (fun x => x.meal_type) = seq := by
  induction seq generalizing i with
  | nil => rfl
  | cons mt rest ih =>
      simp only [App.seedPicks, List.map_cons]
      rw [App_seedSlot_type db mt (r i) (h mt (List.mem_cons_self mt rest)),
        ih (i + 1) (fun mt' hmt' => h mt' (List.mem_cons_of_mem mt hmt'))]

theorem getD_mem (l : List Meal) (i : Nat) (d : Meal) (h : i < l.length) :
    l.getD i d ∈ l := by
  rw [List.getD_eq_getElem?_getD, List.getElem?_eq_getElem h]
  exact List.getElem_mem h

/-- A hill-climb mutation keeps every element inside the pool and leaves
the slot-type sequence unchanged. -/
theorem App_climbTrial_inv (db picks : List Meal) (r1 r2 : Nat)
    (hdb : db ≠ []) (hsub : ∀ x ∈ picks, x ∈ db) :
    (∀ x ∈ App.climbTrial db picks r1 r2, x ∈ db) ∧
    (App.climbTrial db picks r1 r2).map (fun x => x.meal_type) =
      picks.map (fun x => x.meal_type) := by
  by_cases hne : picks = []
  · subst hne
    exact ⟨by simp [App.climbTrial], by simp [App.climbTrial]⟩
  · have hlen : 0 < picks.length := List.length_pos.2 hne
    have hidx : r1 % picks.length < picks.length := Nat.mod_lt r1 hlen
    have hvm : picks.getD (r1 % picks.length) default ∈ picks :=
      getD_mem picks _ default hidx
    have hex : ∃ x ∈ db,
        x.meal_type = (picks.getD (r1 % picks.length) default).meal_type :=
      ⟨_, hsub _ hvm, rfl⟩
    have hbne := App_appBucket_ne db
      (picks.getD (r1 % picks.length) default).meal_type hdb
    have hblen : 0 < (App.appBucket db
        (picks.getD (r1 % picks.length) default).meal_type).length :=
      List.length_pos.2 hbne
    have hts : (if (App.appBucket db
          (picks.getD (r1 % picks.length) default).meal_type).length > 5
        then max 5 ((App.appBucket db
          (picks.getD (r1 % picks.length) default).meal_type).length / 2)
        else (App.appBucket db
          (picks.getD (r1 % picks.length) default).meal_type).length) ≠ 0 := by
      split_ifs <;> omega
    have hpool : (App.appBucket db
          (picks.getD (r1 % picks.length) default).meal_type).take
        (if (App.appBucket db
            (picks.getD (r1 % picks.length) default).meal_type).length > 5
          then max 5 ((App.appBucket db
            (picks.getD (r1 % picks.length) default).meal_type).length / 2)
          else (App.appBucket db
            (picks.getD (r1 % picks.length) default).meal_type).length) ≠ [] := by
      apply List.ne_nil_of_length_pos
      rw [List.length_take]
      have := Nat.pos_of_ne_zero hts
      omega
    have hcand : rchoice ((App.appBucket db
          (picks.getD (r1 % picks.length) default).meal_type).take
        (if (App.appBucket db
            (picks.getD (r1 % picks.length) default).meal_type).length > 5
          then max 5 ((App.appBucket db
            (picks.getD (r1 % picks.length) default).meal_type).length / 2)
          else (App.appBucket db
            (picks.getD (r1 % picks.length) default).meal_type).length))
        r2 default ∈ App.appBucket db
          (picks.getD (r1 % picks.length) default).meal_type :=
      List.take_subset _ _ (rchoice_mem _ r2 default hpool)
    simp only [App.climbTrial]
    rw [if_pos hts]
    constructor
    · intro x hx
      rcases List.mem_or_eq_of_mem_set hx with h | h
      · exact hsub x h
      · exact h ▸ App_appBucket_subset db _ _ hcand
    · exact map_set_self _ default picks _ _
        (App_appBucket_type db _ hex _ hcand)

theorem App_climbStep_inv (db : List Meal) (kt pt ct ft : ℚ)
    (picks : List Meal) (best : ℚ) (r1 r2 : Nat)
    (hdb : db ≠ []) (hsub : ∀ x ∈ picks, x ∈ db) :
    (∀ x ∈ (App.climbStep db kt pt ct ft picks best r1 r2).1, x ∈ db) ∧
    (App.climbStep db kt pt ct ft picks best r1 r2).1.map (fun x => x.meal_type) =
      picks.map (fun x => x.meal_type) := by
  simp only [App.climbStep]
  split_ifs with h
  · exact App_climbTrial_inv db picks r1 r2 hdb hsub
  · exact ⟨hsub, rfl⟩

theorem App_climbLoop_inv (db : List Meal) (kt pt ct ft : Int) (r : Nat → Nat)
    (fuel i : Nat) (picks : List Meal) (best : ℚ)
    (hdb : db ≠ []) (hsub : ∀ x ∈ picks, x ∈ db) :
    (∀ x ∈ (App.climbLoop db kt pt ct ft r fuel i picks best).1, x ∈ db) ∧
    (App.climbLoop db kt pt ct ft r fuel i picks best).1.map (fun x => x.meal_type) =
      picks.map (fun x => x.meal_type) := by
  induction fuel generalizing i picks best with
  | zero => exact ⟨hsub, rfl⟩
  | succ n ih =>
      rw [App.climbLoop]
      have hs := App_climbStep_inv db (kt : ℚ) (pt : ℚ) (ct : ℚ) (ft : ℚ)
        picks best (r i) (r (i + 1)) hdb hsub
      split_ifs with h
      · exact hs
      · have := ih (i + 2)
          (App.climbStep db (kt : ℚ) (pt : ℚ) (ct : ℚ) (ft : ℚ) picks best
            (r i) (r (i + 1))).1
          (App.climbStep db (kt : ℚ) (pt : ℚ) (ct : ℚ) (ft : ℚ) picks best
            (r i) (r (i + 1))).2 hs.1
        exact ⟨this.1, this.2.trans hs.2⟩

theorem argmin_foldl_mem (picks : List Meal) (i : Nat) (rest : List Nat) :
    rest.foldl (fun acc j => if App.pd (picks.getD j default) <
      App.pd (picks.getD acc default) then j else acc) i ∈ i :: rest := by
  induction rest generalizing i with
  | nil => simp
  | cons j t ih =>
      simp only [List.foldl_cons]
      rcases List.mem_cons.1
          (ih (if App.pd (picks.getD j default) < App.pd (picks.getD i default)
            then j else i)) with h | h
      · rw [h]
        split_ifs
        · exact List.mem_cons_of_mem i (List.mem_cons_self j t)
        · exact List.mem_cons_self i (j :: t)
      · exact List.mem_cons_of_mem i (List.mem_cons_of_mem j h)

theorem App_argminPd_mem (picks : List Meal) (l : List Nat) (h : l ≠ []) :
    App.argminPd picks l ∈ l := by
  cases l with
  | nil => exact absurd rfl h
  | cons i rest =>
      simp only [App.argminPd]
      exact argmin_foldl_mem picks i rest

theorem find?_getD_mem (l : List Meal) (p : Meal → Bool) (d : Meal) (h : l ≠ []) :
    ((l.find? p).getD (l.getD 0 d)) ∈ l := by
  cases hf : l.find? p with
  | none => exact getD_mem l 0 d (List.length_pos.2 h)
  | some m => exact List.mem_of_find?_eq_some hf

/-- Replacing any in-range index by the last-mile candidate for its own
slot keeps the selection inside the pool and its slot-type sequence. -/
theorem App_setHp_inv (db picks : List Meal) (vidx : Nat) (hdb : db ≠ [])
    (hsub : ∀ x ∈ picks, x ∈ db) (hvidx : vidx < picks.length) :
    (∀ x ∈ picks.set vidx ((List.find? (fun m =>
        decide (App.pd m ≥ App.pd (picks.getD vidx default) * 1.25))
        (App.appBucket db (picks.getD vidx default).meal_type)).getD
        ((App.appBucket db (picks.getD vidx default).meal_type).getD 0 default)),
      x ∈ db) ∧
    (picks.set vidx ((List.find? (fun m =>
        decide (App.pd m ≥ App.pd (picks.getD vidx default) * 1.25))
        (App.appBucket db (picks.getD vidx default).meal_type)).getD
        ((App.appBucket db (picks.getD vidx default).meal_type).getD 0 default))).map
        (fun x => x.meal_type) =
      picks.map (fun x => x.meal_type) := by
  have hvm := getD_mem picks vidx default hvidx
  have hex : ∃ x ∈ db, x.meal_type = (picks.getD vidx default).meal_type :=
    ⟨_, hsub _ hvm, rfl⟩
  have hbne := App_appBucket_ne db (picks.getD vidx default).meal_type hdb
  have hhp := find?_getD_mem
    (App.appBucket db (picks.getD vidx default).meal_type)
    (fun m => decide (App.pd m ≥ App.pd (picks.getD vidx default) * 1.25))
    default hbne
  refine ⟨?_, ?_⟩
  · intro x hx
    rcases List.mem_or_eq_of_mem_set hx with h | h
    · exact hsub x h
    · exact h ▸ App_appBucket_subset db _ _ hhp
  · exact map_set_self _ default picks _ _ (App_appBucket_type db _ hex _ hhp)

/-- The last-mile protein fix stays in the pool and keeps the slot-type
sequence. -/
theorem App_lastMile_inv (db : List Meal) (pt : Int) (picks : List Meal)
    (hdb : db ≠ []) (hsub : ∀ x ∈ picks, x ∈ db) :
    (∀ x ∈ App.lastMile db pt picks, x ∈ db) ∧
    (App.lastMile db pt picks).map (fun x => x.meal_type) =
      picks.map (fun x => x.meal_type) := by
  by_cases hne : picks = []
  · subst hne
    unfold App.lastMile
    split_ifs <;> exact ⟨fun x hx => absurd hx (List.not_mem_nil x), rfl⟩
  · have hlen : 0 < picks.length := List.length_pos.2 hne
    simp only [App.lastMile]
    split_ifs with hcond h2
    · -- pool = the snack indices (non-empty)
      refine App_setHp_inv db picks _ hdb hsub ?_
      exact List.mem_range.1 (List.mem_of_mem_filter
        (App_argminPd_mem picks _ (fun he => by rw [he] at h2; simp at h2)))
    · -- pool = all indices
      refine App_setHp_inv db picks _ hdb hsub ?_
      exact List.mem_range.1 (App_argminPd_mem picks _
        (fun he => by rw [List.range_eq_nil] at he; omega))
    · exact ⟨hsub, rfl⟩

theorem length_filter_map_eq (l : List Meal) (t : String) :
    (l.filter (fun x => x.meal_type == t)).length =
      ((l.map (fun x => x.meal_type)).filter (fun s => s == t)).length := by
  induction l with
  | nil => rfl
  | cons a rest ih =>
      simp only [List.map_cons, List.filter_cons]
      by_cases h : (a.meal_type == t) = true
      · rw [if_pos h, if_pos h]
        simp [ih]
      · rw [if_neg h, if_neg h]
        exact ih

/-- Unfolding of app.py's `pick_day_plan` on a non-empty pool. -/
theorem App_pick_day_plan_fst (kt : Int) (db : List Meal) (m : Nat)
    (mtg : Option (Int × Int × Int)) (r : Nat → Nat) (hdb : db ≠ []) :
    (App.pick_day_plan kt db m mtg r).1 =
      App.lastMile db (mtg.getD (0, 0, 0)).1
        (App.climbLoop db kt (mtg.getD (0, 0, 0)).1 (mtg.getD (0, 0, 0)).2.1
          (mtg.getD (0, 0, 0)).2.2 r 350 (App.appSeq m).length
          (App.seedPicks db (App.appSeq m) r 0)
          (App.score_plan (App.seedPicks db (App.appSeq m) r 0) (kt : ℚ)
            ((mtg.getD (0, 0, 0)).1 : ℚ) ((mtg.getD (0, 0, 0)).2.1 : ℚ)
            ((mtg.getD (0, 0, 0)).2.2 : ℚ))).1 := by
  simp only [App.pick_day_plan]
  rw [if_neg (by simpa using hdb)]

/-- The whole app.py day plan stays inside the candidate pool. -/
theorem App_pick_day_plan_subset (kt : Int) (db : List Meal) (m : Nat)
    (mtg : Option (Int × Int × Int)) (r : Nat → Nat) (hdb : db ≠ []) :
    ∀ x ∈ (App.pick_day_plan kt db m mtg r).1, x ∈ db := by
  rw [App_pick_day_plan_fst kt db m mtg r hdb]
  have hseed := App_seedPicks_mem db (App.appSeq m) r 0 hdb
  have hloop := App_climbLoop_inv db kt (mtg.getD (0, 0, 0)).1
    (mtg.getD (0, 0, 0)).2.1 (mtg.getD (0, 0, 0)).2.2 r 350
    (App.appSeq m).length (App.seedPicks db (App.appSeq m) r 0)
    (App.score_plan (App.seedPicks db (App.appSeq m) r 0) (kt : ℚ)
      ((mtg.getD (0, 0, 0)).1 : ℚ) ((mtg.getD (0, 0, 0)).2.1 : ℚ)
      ((mtg.getD (0, 0, 0)).2.2 : ℚ)) hdb hseed
  exact (App_lastMile_inv db (mtg.getD (0, 0, 0)).1 _ hdb hloop.1).1

/-- The slot-type sequence of the whole app.py day plan is the slot
sequence, whenever every requested slot type is available in the pool. -/
theorem App_pick_day_plan_types (kt : Int) (db : List Meal) (m : Nat)
    (mtg : Option (Int × Int × Int)) (r : Nat → Nat) (hdb : db ≠ [])
    (hslots : ∀ mt ∈ App.appSeq m, ∃ x ∈ db, x.meal_type = mt) :
    (App.pick_day_plan kt db m mtg r).1.map (fun x => x.meal_type) =
      App.appSeq m := by
  rw [App_pick_day_plan_fst kt db m mtg r hdb]
  have hseed := App_seedPicks_mem db (App.appSeq m) r 0 hdb
  have hloop := App_climbLoop_inv db kt (mtg.getD (0, 0, 0)).1
    (mtg.getD (0, 0, 0)).2.1 (mtg.getD (0, 0, 0)).2.2 r 350
    (App.appSeq m).length (App.seedPicks db (App.appSeq m) r 0)
    (App.score_plan (App.seedPicks db (App.appSeq m) r 0) (kt : ℚ)
      ((mtg.getD (0, 0, 0)).1 : ℚ) ((mtg.getD (0, 0, 0)).2.1 : ℚ)
      ((mtg.getD (0, 0, 0)).2.2 : ℚ)) hdb hseed
  have hlast := App_lastMile_inv db (mtg.getD (0, 0, 0)).1 _ hdb hloop.1
  rw [hlast.2, hloop.2, App_seedPicks_types db (App.appSeq m) r 0 hslots]

theorem MP_bucket_subset (db : List Meal) (mt : String) (x : Meal)
    (hx : x ∈ MP.bucket db mt) : x ∈ db := by
  simp only [MP.bucket] at hx
  split_ifs at hx
  · exact hx
  · exact List.mem_of_mem_filter hx
  · exact hx

theorem MP_bucket_ne (db : List Meal) (mt : String) (hdb : db ≠ []) :
    MP.bucket db mt ≠ [] := by
  simp only [MP.bucket]
  split_ifs with h1 h2
  · exact hdb
  · exact ne_nil_of_not_isEmpty h2
  · exact hdb

theorem MP_seedPicks_mem (db : List Meal) (seq : List String) (r : Nat → Nat)
    (i : Nat) (hdb : db ≠ []) :
    ∀ x ∈ MP.seedPicks db seq r i, x ∈ db := by
  induction seq generalizing i with
  | nil => intro x hx; exact absurd hx (List.not_mem_nil x)
  | cons mt rest ih =>
      intro x hx
      rcases List.mem_cons.1 hx with hx | hx
      · exact hx ▸ MP_bucket_subset db mt _
          (rchoice_mem _ (r i) default (MP_bucket_ne db mt hdb))
      · exact ih (i + 1) x hx

/-- Seeding fills each slot with a meal of the slot's own type whenever
the type is one of the four standard types and is available in the db
(the bucket is then the non-empty type filter, not the whole-db
fallback). -/
theorem MP_seedPicks_types (db : List Meal) (seq : List String) (r : Nat → Nat)
    (i : Nat) (hslots : ∀ mt ∈ seq,
      MP.MEAL_TYPES.contains mt = true ∧ ∃ x ∈ db, x.meal_type = mt) :
    (MP.seedPicks db seq r i).map (fun x => x.meal_type) = seq := by
  induction seq generalizing i with
  | nil => rfl
  | cons mt rest ih =>
      obtain ⟨hct, w, hw, hwt⟩ := hslots mt (List.mem_cons_self mt rest)
      have hfil : db.filter (fun m => m.meal_type == mt) ≠ [] := by
        intro he
        have hwf : w ∈ db.filter (fun m => m.meal_type == mt) :=
          List.mem_filter.2 ⟨hw, by simp [hwt]⟩
        rw [he] at hwf
        exact List.not_mem_nil w hwf
      have hbeq : MP.bucket db mt = db.filter (fun m => m.meal_type == mt) := by
        simp only [MP.bucket]
        rw [if_pos hct, if_neg (by simpa using hfil)]
      have hmem : rchoice (MP.bucket db mt) (r i) default ∈
          db.filter (fun m => m.meal_type == mt) := by
        rw [← hbeq]
        exact rchoice_mem _ (r i) default (by rw [hbeq]; exact hfil)
      have htype : (rchoice (MP.bucket db mt) (r i) default).meal_type = mt := by
        have := (List.mem_filter.1 hmem).2
        simpa using this
      simp only [MP.seedPicks, List.map_cons]
      rw [htype, ih (i + 1) (fun mt' hmt' => hslots mt' (List.mem_cons_of_mem mt hmt'))]

/-- A planner.py mutation keeps every element inside the pool and leaves
the slot-type sequence unchanged (the replaced slot's type is standard,
so its bucket is the non-empty same-type filter). -/
theorem MP_stepTrial_inv (db picks : List Meal) (r1 r2 : Nat)
    (_hdb : db ≠ []) (hsub : ∀ x ∈ picks, x ∈ db)
    (htypes : ∀ t ∈ picks.map (fun x => x.meal_type),
      MP.MEAL_TYPES.contains t = true) :
    (∀ x ∈ MP.stepTrial db picks r1 r2, x ∈ db) ∧
    (MP.stepTrial db picks r1 r2).map (fun x => x.meal_type) =
      picks.map (fun x => x.meal_type) := by
  by_cases hne : picks = []
  · subst hne
    exact ⟨by simp [MP.stepTrial], by simp [MP.stepTrial]⟩
  · have hlen : 0 < picks.length := List.length_pos.2 hne
    have hidx : r1 % picks.length < picks.length := Nat.mod_lt r1 hlen
    have hvm : picks.getD (r1 % picks.length) default ∈ picks :=
      getD_mem picks _ default hidx
    have hvt : MP.MEAL_TYPES.contains
        (picks.getD (r1 % picks.length) default).meal_type = true :=
      htypes _ (List.mem_map.2 ⟨_, hvm, rfl⟩)
    have hfil : db.filter (fun m =>
        m.meal_type == (picks.getD (r1 % picks.length) default).meal_type) ≠ [] := by
      intro he
      have hvf : picks.getD (r1 % picks.length) default ∈ db.filter (fun m =>
          m.meal_type == (picks.getD (r1 % picks.length) default).meal_type) :=
        List.mem_filter.2 ⟨hsub _ hvm, by simp⟩
      rw [he] at hvf
      exact List.not_mem_nil _ hvf
    have hbeq : MP.bucket db (picks.getD (r1 % picks.length) default).meal_type =
        db.filter (fun m =>
          m.meal_type == (picks.getD (r1 % picks.length) default).meal_type) := by
      simp only [MP.bucket]
      rw [if_pos hvt, if_neg (by simpa using hfil)]
    have hcand : rchoice
        (MP.bucket db (picks.getD (r1 % picks.length) default).meal_type) r2 default ∈
        db.filter (fun m =>
          m.meal_type == (picks.getD (r1 % picks.length) default).meal_type) := by
      rw [← hbeq]
      exact rchoice_mem _ r2 default (by rw [hbeq]; exact hfil)
    have hcand_type : (rchoice
        (MP.bucket db (picks.getD (r1 % picks.length) default).meal_type)
          r2 default).meal_type =
        (picks.getD (r1 % picks.length) default).meal_type := by
      have := (List.mem_filter.1 hcand).2
      simpa using this
    simp only [MP.stepTrial]
    refine ⟨?_, ?_⟩
    · intro x hx
      rcases List.mem_or_eq_of_mem_set hx with h | h
      · exact hsub x h
      · exact h ▸ (List.mem_filter.1 hcand).1
    · exact map_set_self _ default picks _ _ hcand_type

theorem MP_step_inv (db : List Meal) (kt : Int) (mtg : Option (Int × Int × Int))
    (picks : List Meal) (best : ℚ) (r1 r2 : Nat)
    (hdb : db ≠ []) (hsub : ∀ x ∈ picks, x ∈ db)
    (htypes : ∀ t ∈ picks.map (fun x => x.meal_type),
      MP.MEAL_TYPES.contains t = true) :
    (∀ x ∈ (MP.step db kt mtg picks best r1 r2).1, x ∈ db) ∧
    (MP.step db kt mtg picks best r1 r2).1.map (fun x => x.meal_type) =
      picks.map (fun x => x.meal_type) := by
  rcases mtg with _ | ⟨p, c, f⟩ <;>
    simp only [MP.step] <;>
    split_ifs <;>
    first
    | exact MP_stepTrial_inv db picks r1 r2 hdb hsub htypes
    | exact ⟨hsub, rfl⟩

theorem MP_loop_inv (db : List Meal) (kt : Int) (mtg : Option (Int × Int × Int))
    (r : Nat → Nat) (fuel i : Nat) (picks : List Meal) (best : ℚ)
    (hdb : db ≠ []) (hsub : ∀ x ∈ picks, x ∈ db)
    (htypes : ∀ t ∈ picks.map (fun x => x.meal_type),
      MP.MEAL_TYPES.contains t = true) :
    (∀ x ∈ MP.loop db kt mtg r fuel i picks best, x ∈ db) ∧
    (MP.loop db kt mtg r fuel i picks best).map (fun x => x.meal_type) =
      picks.map (fun x => x.meal_type) := by
  induction fuel generalizing i picks best with
  | zero => exact ⟨hsub, rfl⟩
  | succ n ih =>
      rw [MP.loop]
      have hs := MP_step_inv db kt mtg picks best (r i) (r (i + 1)) hdb hsub htypes
      split_ifs with h
      · exact hs
      · have htypes' : ∀ t ∈ (MP.step db kt mtg picks best (r i)
            (r (i + 1))).1.map (fun x => x.meal_type),
            MP.MEAL_TYPES.contains t = true := by
          rw [hs.2]
          exact htypes
        have hrec := ih (i + 2)
          (MP.step db kt mtg picks best (r i) (r (i + 1))).1
          (MP.step db kt mtg picks best (r i) (r (i + 1))).2 hs.1 htypes'
        exact ⟨hrec.1, hrec.2.trans hs.2⟩

/-- The slot-type sequence of the whole planner.py day plan is the
shuffled slot sequence, whenever every requested slot type is standard
and available in the pool. -/
theorem MP_pick_day_plan_types (kt : Int) (db : List Meal) (m : Nat)
    (mtg : Option (Int × Int × Int)) (shuffle : List String → List String)
    (r : Nat → Nat) (hdb : db ≠ [])
    (hslots : ∀ mt ∈ shuffle (MP.baseSeq m),
      MP.MEAL_TYPES.contains mt = true ∧ ∃ x ∈ db, x.meal_type = mt) :
    (MP.pick_day_plan kt db m mtg shuffle r).1.map (fun x => x.meal_type) =
      shuffle (MP.baseSeq m) := by
  have hseedm := MP_seedPicks_mem db (shuffle (MP.baseSeq m)) r 0 hdb
  have hseedt := MP_seedPicks_types db (shuffle (MP.baseSeq m)) r 0 hslots
  have htypes : ∀ t ∈ (MP.seedPicks db (shuffle (MP.baseSeq m)) r 0).map
      (fun x => x.meal_type), MP.MEAL_TYPES.contains t = true := by
    rw [hseedt]
    intro t ht
    exact (hslots t ht).1
  rcases mtg with _ | ⟨p, c, f⟩ <;>
    simp only [MP.pick_day_plan] <;>
    rw [(MP_loop_inv db kt _ r 150 _ _ _ hdb hseedm htypes).2, hseedt]

/-- Claim C6 (amended): for `mealsPerDay = 3` and a candidate pool
containing at least one breakfast-, one lunch- and one dinner-typed meal,
the selection returned by `pick_day_plan` contains exactly one meal of
each of the three types, for every random outcome — for app.py's copy and
for planner.py's copy (whose `random.shuffle` outcome is any permutation
of the three-slot sequence). -/
theorem C6_slot_composition (kt : Int) (db : List Meal)
    (mtg : Option (Int × Int × Int)) (r : Nat → Nat)
    (shuffle : List String → List String)
    (hb : ∃ x ∈ db, x.meal_type = "breakfast")
    (hl : ∃ x ∈ db, x.meal_type = "lunch")
    (hd : ∃ x ∈ db, x.meal_type = "dinner")
    (hperm : List.Perm (shuffle (MP.baseSeq 3)) (MP.baseSeq 3)) :
    ((App.pick_day_plan kt db 3 mtg r).1.filter
      (fun x => x.meal_type == "breakfast")).length = 1 ∧
    ((App.pick_day_plan kt db 3 mtg r).1.filter
      (fun x => x.meal_type == "lunch")).length = 1 ∧
    ((App.pick_day_plan kt db 3 mtg r).1.filter
      (fun x => x.meal_type == "dinner")).length = 1 ∧
    ((MP.pick_day_plan kt db 3 mtg shuffle r).1.filter
      (fun x => x.meal_type == "breakfast")).length = 1 ∧
    ((MP.pick_day_plan kt db 3 mtg shuffle r).1.filter
      (fun x => x.meal_type == "lunch")).length = 1 ∧
    ((MP.pick_day_plan kt db 3 mtg shuffle r).1.filter
      (fun x => x.meal_type == "dinner")).length = 1 := by
  have hdb : db ≠ [] := by
    rcases hb with ⟨w, hw, _⟩
    exact fun he => List.not_mem_nil w (he ▸ hw)
  have hseq : App.appSeq 3 = ["breakfast", "lunch", "dinner"] := by
    rw [appSeq_eq 3 (le_refl 3)]
    rfl
  have hslots : ∀ mt ∈ App.appSeq 3, ∃ x ∈ db, x.meal_type = mt := by
    rw [hseq]
    intro mt hmt
    simp only [List.mem_cons, List.not_mem_nil, or_false] at hmt
    rcases hmt with rfl | rfl | rfl
    · exact hb
    · exact hl
    · exact hd
  have hmap := App_pick_day_plan_types kt db 3 mtg r hdb hslots
  rw [hseq] at hmap
  have hbs : MP.baseSeq 3 = ["breakfast", "lunch", "dinner"] := rfl
  have hslotsP : ∀ mt ∈ shuffle (MP.baseSeq 3),
      MP.MEAL_TYPES.contains mt = true ∧ ∃ x ∈ db, x.meal_type = mt := by
    intro mt hmt
    have hmt' : mt ∈ MP.baseSeq 3 := hperm.mem_iff.1 hmt
    rw [hbs] at hmt'
    simp only [List.mem_cons, List.not_mem_nil, or_false] at hmt'
    rcases hmt' with rfl | rfl | rfl
    · exact ⟨by decide, hb⟩
    · exact ⟨by decide, hl⟩
    · exact ⟨by decide, hd⟩
  have hmapP := MP_pick_day_plan_types kt db 3 mtg shuffle r hdb hslotsP
  refine ⟨?_, ?_, ?_, ?_, ?_, ?_⟩
  · rw [length_filter_map_eq, hmap]
    decide
  · rw [length_filter_map_eq, hmap]
    decide
  · rw [length_filter_map_eq, hmap]
    decide
  · rw [length_filter_map_eq, hmapP,
      (hperm.filter (fun s => s == "breakfast")).length_eq]
    decide
  · rw [length_filter_map_eq, hmapP,
      (hperm.filter (fun s => s == "lunch")).length_eq]
    decide
  · rw [length_filter_map_eq, hmapP,
      (hperm.filter (fun s => s == "dinner")).length_eq]
    decide

/-- Witness for C6 on a three-meal pool, with the identity shuffle. -/
theorem C6_slot_composition_witness :
    ((App.pick_day_plan 1400 [⟨"B", "breakfast", 300, 20, 30, 8, [], []⟩,
        ⟨"L", "lunch", 500, 40, 50, 15, [], []⟩,
        ⟨"D", "dinner", 600, 45, 55, 20, [], []⟩] 3 none (fun _ => 0)).1.filter
      (fun x => x.meal_type == "breakfast")).length = 1 ∧
    ((App.pick_day_plan 1400 [⟨"B", "breakfast", 300, 20, 30, 8, [], []⟩,
        ⟨"L", "lunch", 500, 40, 50, 15, [], []⟩,
        ⟨"D", "dinner", 600, 45, 55, 20, [], []⟩] 3 none (fun _ => 0)).1.filter
      (fun x => x.meal_type == "lunch")).length = 1 ∧
    ((App.pick_day_plan 1400 [⟨"B", "breakfast", 300, 20, 30, 8, [], []⟩,
        ⟨"L", "lunch", 500, 40, 50, 15, [], []⟩,
        ⟨"D", "dinner", 600, 45, 55, 20, [], []⟩] 3 none (fun _ => 0)).1.filter
      (fun x => x.meal_type == "dinner")).length = 1 ∧
    ((MP.pick_day_plan 1400 [⟨"B", "breakfast", 300, 20, 30, 8, [], []⟩,
        ⟨"L", "lunch", 500, 40, 50, 15, [], []⟩,
        ⟨"D", "dinner", 600, 45, 55, 20, [], []⟩] 3 none id (fun _ => 0)).1.filter
      (fun x => x.meal_type == "breakfast")).length = 1 ∧
    ((MP.pick_day_plan 1400 [⟨"B", "breakfast", 300, 20, 30, 8, [], []⟩,
        ⟨"L", "lunch", 500, 40, 50, 15, [], []⟩,
        ⟨"D", "dinner", 600, 45, 55, 20, [], []⟩] 3 none id (fun _ => 0)).1.filter
      (fun x => x.meal_type == "lunch")).length = 1 ∧
    ((MP.pick_day_plan 1400 [⟨"B", "breakfast", 300, 20, 30, 8, [], []⟩,
        ⟨"L", "lunch", 500, 40, 50, 15, [], []⟩,
        ⟨"D", "dinner", 600, 45, 55, 20, [], []⟩] 3 none id (fun _ => 0)).1.filter
      (fun x => x.meal_type == "dinner")).length = 1 :=
  C6_slot_composition 1400 _ none (fun _ => 0) id
    ⟨⟨"B", "breakfast", 300, 20, 30, 8, [], []⟩, by simp, rfl⟩
    ⟨⟨"L", "lunch", 500, 40, 50, 15, [], []⟩, by simp, rfl⟩
    ⟨⟨"D", "dinner", 600, 45, 55, 20, [], []⟩, by simp, rfl⟩
    (List.Perm.refl _)

/-- Counterexample for C6 as stated: with a candidate pool holding only a
dinner-typed meal, the global fallback fills every slot with dinner-typed
meals, so the planned day contains no breakfast-typed item at all. -/
theorem C6_slot_composition_cex :
    ¬ (((App.pick_day_plan 2000 [⟨"D", "dinner", 600, 45, 55, 20, [], []⟩] 3
        none (fun _ => 0)).1.filter
      (fun x => x.meal_type == "breakfast")).length = 1) := by
  have hsub := App_pick_day_plan_subset 2000
    [⟨"D", "dinner", 600, 45, 55, 20, [], []⟩] 3 none (fun _ => 0) (by simp)
  have hfil : ((App.pick_day_plan 2000 [⟨"D", "dinner", 600, 45, 55, 20, [], []⟩] 3
      none (fun _ => 0)).1.filter (fun x => x.meal_type == "breakfast")) = [] := by
    rw [List.filter_eq_nil_iff]
    intro a ha
    have := hsub a ha
    simp only [List.mem_singleton] at this
    subst this
    decide
  rw [hfil]
  decide

/-- Witness for C5 at empty inputs and zero fuel, with `best` seeded to
the score of the held selection (discharging both invariant hypotheses). -/
theorem C5_strict_improvement_witness :
    App.score_plan (App.climbLoop [] 0 0 0 0 (fun _ => 0) 0 0 []
        (App.score_plan [] ((0 : Int) : ℚ) ((0 : Int) : ℚ) ((0 : Int) : ℚ)
          ((0 : Int) : ℚ))).1 ((0 : Int) : ℚ) ((0 : Int) : ℚ) ((0 : Int) : ℚ)
        ((0 : Int) : ℚ) ≤
      App.score_plan [] ((0 : Int) : ℚ) ((0 : Int) : ℚ) ((0 : Int) : ℚ) ((0 : Int) : ℚ) ∧
    MP.curScore 0 none (MP.loop [] 0 none (fun _ => 0) 0 0 []
        (App.score_plan [] ((0 : Int) : ℚ) ((0 : Int) : ℚ) ((0 : Int) : ℚ) ((0 : Int) : ℚ))) ≤
      MP.curScore 0 none [] :=
  ⟨(C5_strict_improvement [] []
      (App.score_plan [] ((0 : Int) : ℚ) ((0 : Int) : ℚ) ((0 : Int) : ℚ) ((0 : Int) : ℚ))
      0 0 0 0 0 0 0 0 0 (fun _ => 0) 0 0).2.2.2.1 rfl,
   (C5_strict_improvement [] []
      (App.score_plan [] ((0 : Int) : ℚ) ((0 : Int) : ℚ) ((0 : Int) : ℚ) ((0 : Int) : ℚ))
      0 0 0 0 0 0 0 0 0 (fun _ => 0) 0 0).2.2.2.2 none
      (fun _ _ _ h => Option.noConfusion h)⟩

/-- Witness for C10 on a concrete four-record store. -/
theorem C10_rebalance_no_mutation_witness :
    (0 : Nat) < 4 ∧
    ((App.hRebalanceDay 1 2 3 ⟨fun _ => default, 4⟩ [0] 2000 (200, 150, 67)).1.heap 0 =
        (⟨fun _ => default, 4⟩ : App.Store).heap 0 ∧
      4 ≤ (App.hRebalanceDay 1 2 3 ⟨fun _ => default, 4⟩ [0] 2000 (200, 150, 67)).1.next) :=
  ⟨by decide,
    C10_rebalance_no_mutation 1 2 3 ⟨fun _ => default, 4⟩ [0] 2000 (200, 150, 67) 0
      (by decide)⟩

section ConcreteEvaluation

/-!
Concrete evaluations of the rational-arithmetic embedding.  Batteries
marks the `Rat` field operations `@[irreducible]`; within this section
they are restored to their definitional behaviour so that the kernel can
evaluate the embedded score and rebalance functions on concrete inputs.
-/

attribute [local semireducible] Rat.inv Rat.mul Rat.add Rat.sub Rat.ofScientific

/-- Counterexample for C7 as stated: app.py's `_score_plan`, at the
documented 40/30/30 targets for 2000 kcal (200P/150C/67F), penalises a
1-gram fat deviation strictly less than a 1-kcal calorie deviation, so
its per-gram ordering fat ≥ calories fails (the baseline selection
scoring exactly 0). -/
theorem C7_score_weight_order_cex :
    App.score_plan [⟨"x", "dinner", 2000, 200, 150, 67, [], []⟩] 2000 200 150 67 = 0 ∧
    App.score_plan [⟨"x", "dinner", 2000, 200, 150, 68, [], []⟩] 2000 200 150 67 <
      App.score_plan [⟨"x", "dinner", 2001, 200, 150, 67, [], []⟩] 2000 200 150 67 := by
  constructor
  · decide
  · decide

/-- Witness for C4: a single 2000-kcal meal exactly on the 200P/150C/67F
targets is converged, and the pass returns it unchanged. -/
theorem C4_rebalance_stop_witness :
    App.converged 2000 200 150 67 [⟨"x", "dinner", 2000, 200, 150, 67, [], []⟩] = true ∧
      App.rebalance_day [⟨"x", "dinner", 2000, 200, 150, 67, [], []⟩] 2000
        (200, 150, 67) = [⟨"x", "dinner", 2000, 200, 150, 67, [], []⟩] :=
  ⟨by decide,
    (C4_rebalance_stop 2000 200 150 67 [⟨"x", "dinner", 2000, 200, 150, 67, [], []⟩] 4
      (by decide)).2⟩

/-- Counterexample for C4 as stated: a selection already exactly on the
calorie target (hence inside the tolerance band) whose protein gap is
large is NOT returned unchanged — the pass keeps adjusting it. -/
theorem C4_rebalance_stop_cex :
    totalsK [⟨"Mega Snack", "snack", 2000, 0, 150, 67, [], []⟩] = 2000 ∧
    App.lowerB 2000 ≤ 2000 ∧ (2000 : Int) ≤ App.upperB 2000 ∧
    App.rebalance_day [⟨"Mega Snack", "snack", 2000, 0, 150, 67, [], []⟩] 2000
        (200, 150, 67) ≠ [⟨"Mega Snack", "snack", 2000, 0, 150, 67, [], []⟩] := by
  refine ⟨by decide, by decide, by decide, by decide⟩

end ConcreteEvaluation
